import Mathlib

/-!
Shallow embedding of the `l402_requests` package: the L402 challenge parser
(`challenge.py`), the BOLT11 amount extractor (`bolt11.py`), the budget
controller (`budget.py`), the LRU credential cache (`credential_cache.py`),
the spending log (`spending_log.py`) and the request orchestrator
(`L402Client.request` in `client.py`).  Machine time is modelled by an
explicit `now : Int` parameter; amounts in satoshis are `Nat`.
-/

namespace L402Req

/-- Python `str.lower()` on ASCII strings, characterwise. -/
def pyLower (s : String) : String := String.mk (s.data.map Char.toLower)

/-- Python `str.split(sep)` for a one-character separator (keeps empty
segments, and yields one empty segment for the empty string). -/
def splitOnChar (sep : Char) (l : List Char) : List (List Char) :=
  l.foldr (fun c acc =>
    match acc with
    | [] => [[c]]
    | a :: rest => if c = sep then [] :: a :: rest else (c :: a) :: rest) [[]]

/-- Python `"/".join(parts)`. -/
def joinSlash : List (List Char) → List Char
  | [] => []
  | [a] => a
  | a :: rest => a ++ '/' :: joinSlash rest

/-- Python ASCII whitespace (the characters matched by `str.strip` and by
the regex class backslash-s on ASCII input). -/
def pySpace (c : Char) : Bool :=
  c = ' ' || c = '\t' || c = '\n' || c = '\r' || c = '\x0b' || c = '\x0c'

/-- Python `str.strip()` on a character list. -/
def pyStrip (l : List Char) : List Char :=
  ((l.dropWhile pySpace).reverse.dropWhile pySpace).reverse

/-- Consume a literal pattern case-insensitively (the pattern is stored in
lowercase, as the regexes in `challenge.py` are compiled with IGNORECASE). -/
def eatCI : List Char → List Char → Option (List Char)
  | [], s => some s
  | _ :: _, [] => none
  | p :: ps, c :: cs => if c.toLower = p then eatCI ps cs else none

/-- Greedy match of one-or-more whitespace characters. -/
def eatSpaces1 : List Char → Option (List Char)
  | [] => none
  | c :: cs => if pySpace c then some (cs.dropWhile pySpace) else none

/-- Greedy nonempty run of a character class. -/
def takeRun1 (p : Char → Bool) (s : List Char) : Option (List Char × List Char) :=
  match s.takeWhile p with
  | [] => none
  | g => some (g, s.dropWhile p)

/-- The scheme token alternation `L402|LSAT` of the challenge regexes. -/
def eatScheme (s : List Char) : Option (List Char) :=
  match eatCI ("l402").toList s with
  | some r => some r
  | none => eatCI ("lsat").toList s

/-- Character class of the quoted-field groups of `_CHALLENGE_RE`:
anything except a double quote. -/
def notQuote (c : Char) : Bool := c != '"'

/-- Character class of the unquoted-field groups of `_CHALLENGE_NOQUOTE_RE`:
anything except whitespace and commas. -/
def classU (c : Char) : Bool := !pySpace c && c != ','

/-- One match attempt of `_CHALLENGE_RE` (the quoted form) at the start of
`s0`, returning the two captured groups. -/
def quotedAt (s0 : List Char) : Option (List Char × List Char) :=
  match eatScheme s0 with
  | none => none
  | some s1 =>
    match eatSpaces1 s1 with
    | none => none
    | some s2 =>
      match eatCI ("macaroon=\"").toList s2 with
      | none => none
      | some s3 =>
        match takeRun1 notQuote s3 with
        | none => none
        | some (mac, s4) =>
          match eatCI ("\"").toList s4 with
          | none => none
          | some s5 =>
            match eatCI (",").toList (s5.dropWhile pySpace) with
            | none => none
            | some s6 =>
              match eatCI ("invoice=\"").toList (s6.dropWhile pySpace) with
              | none => none
              | some s7 =>
                match takeRun1 notQuote s7 with
                | none => none
                | some (inv, s8) =>
                  match eatCI ("\"").toList s8 with
                  | none => none
                  | some _ => some (mac, inv)

/-- The part of `_CHALLENGE_NOQUOTE_RE` after the first captured group:
optional whitespace, an optional comma, optional whitespace, the literal
`invoice=` and the second captured group. -/
def unquotTail (s : List Char) : Option (List Char) :=
  let s1 := s.dropWhile pySpace
  let s2 := match s1 with
    | ',' :: r => r
    | _ => s1
  let s3 := s2.dropWhile pySpace
  match eatCI ("invoice=").toList s3 with
  | none => none
  | some s4 =>
    match takeRun1 classU s4 with
    | none => none
    | some (inv, _) => some inv

/-- Backtracking over the greedy first group of `_CHALLENGE_NOQUOTE_RE`:
try the longest prefix of the maximal class run first. -/
def tryMac : Nat → List Char → List Char → Option (List Char × List Char)
  | 0, _, _ => none
  | k + 1, run, rest =>
    match unquotTail (run.drop (k + 1) ++ rest) with
    | some inv => some (run.take (k + 1), inv)
    | none => tryMac k run rest

/-- One match attempt of `_CHALLENGE_NOQUOTE_RE` at the start of `s0`. -/
def unquotedAt (s0 : List Char) : Option (List Char × List Char) :=
  match eatScheme s0 with
  | none => none
  | some s1 =>
    match eatSpaces1 s1 with
    | none => none
    | some s2 =>
      match eatCI ("macaroon=").toList s2 with
      | none => none
      | some s3 =>
        tryMac (s3.takeWhile classU).length (s3.takeWhile classU) (s3.dropWhile classU)

/-- `re.search`: try a match attempt at every start position, leftmost
success wins. -/
def searchFrom (m : List Char → Option (List Char × List Char)) :
    List Char → Option (List Char × List Char)
  | [] => m []
  | c :: rest =>
    match m (c :: rest) with
    | some r => some r
    | none => searchFrom m rest

/-- `_CHALLENGE_RE.search(header) or _CHALLENGE_NOQUOTE_RE.search(header)`. -/
def challengeSearch (s : List Char) : Option (List Char × List Char) :=
  match searchFrom quotedAt s with
  | some r => some r
  | none => searchFrom unquotedAt s

/-- Parsed L402 challenge (`L402Challenge` in `challenge.py`). -/
structure L402Challenge where
  macaroon : String
  invoice : String
deriving DecidableEq, Repr

/-- The distinct failure reasons of `ChallengeParseError` raised by
`parse_challenge`. -/
inductive ChallengeParseError where
  | emptyHeader
  | noMatch
  | emptyMacaroon
  | emptyInvoice
deriving DecidableEq, Repr

/-- `parse_challenge` from `challenge.py`. -/
def parse_challenge (header : String) : Except ChallengeParseError L402Challenge :=
  if header = "" then .error .emptyHeader
  else
    match challengeSearch header.toList with
    | none => .error .noMatch
    | some (mac, inv) =>
      let m := pyStrip mac
      let i := pyStrip inv
      if m = [] then .error .emptyMacaroon
      else if i = [] then .error .emptyInvoice
      else .ok ⟨String.mk m, String.mk i⟩

/-- The Python dict comprehension lowering header names (later duplicates
win) followed by `.get(name)`. -/
def headerLookup (headers : List (String × String)) (name : String) : Option String :=
  (headers.filterMap (fun h => if pyLower h.1 = name then some h.2 else none)).getLast?

/-- `find_l402_challenge` from `challenge.py`: scan the headers for
`WWW-Authenticate`, absorb parse failures into `none`. -/
def find_l402_challenge (headers : List (String × String)) : Option L402Challenge :=
  let www := (headerLookup headers "www-authenticate").getD ""
  if www = "" then none
  else
    match parse_challenge www with
    | .ok c => some c
    | .error _ => none

/-! ## BOLT11 amount extraction (`bolt11.py`) -/

/-- The multiplier class `[munp]` of `_BOLT11_RE`. -/
def multChar (c : Char) : Bool := c = 'm' || c = 'u' || c = 'n' || c = 'p'

/-- Match the final part `([munp])?1` of `_BOLT11_RE` (greedy optional
multiplier, then the literal separator `1`). -/
def afterDigits : List Char → Option (Option Char)
  | c :: '1' :: _ => if multChar c then some (some c) else if c = '1' then some none else none
  | '1' :: _ => some none
  | _ => none

/-- Backtracking over the greedy optional digit group of `_BOLT11_RE`:
`digs` is the maximal digit run; try group sizes from `k` down to zero. -/
def tryDigits : Nat → List Char → List Char → Option (Option (List Char) × Option Char)
  | 0, digs, rest => (afterDigits (digs ++ rest)).map (fun m => (none, m))
  | k + 1, digs, rest =>
    match afterDigits (digs.drop (k + 1) ++ rest) with
    | some m => some (some (digs.take (k + 1)), m)
    | none => tryDigits k digs rest

/-- Match `(\d+)?([munp])?1` at the start of `s`. -/
def tailMatch (s : List Char) : Option (Option (List Char) × Option Char) :=
  tryDigits (s.takeWhile Char.isDigit).length (s.takeWhile Char.isDigit)
    (s.dropWhile Char.isDigit)

/-- ASCII lowercase letter, the class `[a-z]` on the lowercased invoice. -/
def lowerAlpha (c : Char) : Bool := 'a' ≤ c && c ≤ 'z'

/-- The lazy network group `([a-z]+?)`: extend the network one letter at a
time, trying the rest of the pattern after each extension. -/
def netScan : List Char → List Char → Option (List Char × (Option (List Char) × Option Char))
  | _, [] => none
  | acc, c :: rest =>
    if lowerAlpha c then
      match tailMatch rest with
      | some dm => some (acc ++ [c], dm)
      | none => netScan (acc ++ [c]) rest
    else none

/-- `_BOLT11_RE.match` on the lowercased invoice: groups
`(network, amount?, multiplier?)`. -/
def bolt11Match (s : List Char) : Option (List Char × (Option (List Char) × Option Char)) :=
  match s with
  | 'l' :: 'n' :: rest => netScan [] rest
  | _ => none

/-- Value of a decimal digit string (`Decimal(amount_str)`). -/
def digitsToNat (ds : List Char) : Nat :=
  ds.foldl (fun a c => a * 10 + (c.toNat - '0'.toNat)) 0

/-- `_MULTIPLIERS` as the denominator of the exact fractional-BTC scale. -/
def multDen (c : Char) : Nat :=
  if c = 'm' then 1000
  else if c = 'u' then 1000000
  else if c = 'n' then 1000000000
  else if c = 'p' then 1000000000000
  else 1

/-- `_SATS_PER_BTC`. -/
def SATS_PER_BTC : Nat := 100000000

/-- `bolt11.strip().lower()` as a character list. -/
def normalizeInvoice (b : String) : List Char :=
  (pyStrip b.toList).map Char.toLower

/-- `extract_amount_sats` from `bolt11.py`.  `int(Decimal(d) * scale * 10^8)`
is the truncated exact rational `d * 10^8 / den`, which `Nat` division
computes for the nonnegative values at hand. -/
def extract_amount_sats (b : String) : Option Nat :=
  if b = "" then none
  else
    match bolt11Match (normalizeInvoice b) with
    | none => none
    | some (_, (none, _)) => none
    | some (_, (some ds, mult)) =>
      let d := digitsToNat ds
      some (match mult with
        | some c => d * SATS_PER_BTC / multDen c
        | none => d * SATS_PER_BTC)

/-! ## Budget controller (`budget.py`) -/

/-- `BudgetController` dataclass state; `payments` is the deque of
`(timestamp, amount)` pairs. -/
structure BudgetController where
  max_sats_per_request : Nat := 1000
  max_sats_per_hour : Nat := 10000
  max_sats_per_day : Nat := 50000
  allowed_domains : Option (List String) := none
  payments : List (Int × Nat) := []
deriving DecidableEq, Repr

/-- The two exception kinds `BudgetController.check` can raise. -/
inductive BudgetFailure where
  | domainNotAllowed (domain : String)
  | budgetExceeded (limit_type : String) (limit_sats current_sats invoice_sats : Nat)
deriving DecidableEq, Repr

/-- `BudgetController._prune`: drop leading entries older than 24 hours. -/
def BudgetController.prune (b : BudgetController) (now : Int) : BudgetController :=
  { b with payments := b.payments.dropWhile (fun p => decide (p.1 < now - 86400)) }

/-- `sum(amt for ts, amt in payments if ts >= cutoff)`. -/
def windowSum (payments : List (Int × Nat)) (cutoff : Int) : Nat :=
  ((payments.filter (fun p => decide (cutoff ≤ p.1))).map Prod.snd).sum

/-- The allow-list guard at the top of `BudgetController.check`. -/
def allowRejects (b : BudgetController) (domain : String) : Bool :=
  match b.allowed_domains with
  | none => false
  | some ds => domain != "" && !((ds.map (fun d => pyLower d)).contains (pyLower domain))

/-- `BudgetController.check`, returning the raised failure (if any) and the
post-call controller state (pruned exactly when the code reached `_prune`). -/
def BudgetController.check (b : BudgetController) (amount_sats : Nat) (domain : String)
    (now : Int) : Option BudgetFailure × BudgetController :=
  if allowRejects b domain then (some (.domainNotAllowed domain), b)
  else if b.max_sats_per_request < amount_sats then
    (some (.budgetExceeded "per_request" b.max_sats_per_request 0 amount_sats), b)
  else
    let b2 := b.prune now
    let spent_hour := windowSum b2.payments (now - 3600)
    if b2.max_sats_per_hour < spent_hour + amount_sats then
      (some (.budgetExceeded "per_hour" b2.max_sats_per_hour spent_hour amount_sats), b2)
    else
      let spent_day := windowSum b2.payments (now - 86400)
      if b2.max_sats_per_day < spent_day + amount_sats then
        (some (.budgetExceeded "per_day" b2.max_sats_per_day spent_day amount_sats), b2)
      else (none, b2)

/-- `BudgetController.record_payment`. -/
def BudgetController.record_payment (b : BudgetController) (amount_sats : Nat)
    (now : Int) : BudgetController :=
  { b with payments := b.payments ++ [(now, amount_sats)] }

/-! ## Credential cache (`credential_cache.py`) -/

/-- `L402Credential`. -/
structure L402Credential where
  macaroon : String
  preimage : String
  created_at : Int
  expires_at : Option Int
deriving DecidableEq, Repr

/-- `L402Credential.is_expired` (`time.time() >= expires_at`). -/
def L402Credential.is_expired (c : L402Credential) (now : Int) : Bool :=
  match c.expires_at with
  | none => false
  | some e => e ≤ now

/-- `L402Credential.authorization_header`. -/
def L402Credential.authorization_header (c : L402Credential) : String :=
  "L402 " ++ c.macaroon ++ ":" ++ c.preimage

/-- `_cache_key`: lowercased stripped domain, plus the route made of the
first two non-empty path segments. -/
def cache_key (domain path : String) : String × String :=
  let d := String.mk (pyStrip (pyLower domain).toList)
  let parts := (splitOnChar '/' path.toList).filter (fun p => !p.isEmpty)
  let route :=
    if parts.length ≥ 2 then String.mk ('/' :: joinSlash (parts.take 2))
    else String.mk ('/' :: joinSlash parts)
  (d, route)

/-- `CredentialCache` state: `entries` is the `OrderedDict` as a list,
least-recently-used first. -/
structure CredentialCache where
  max_size : Nat := 256
  default_ttl : Option Int := some 3600
  entries : List ((String × String) × L402Credential) := []
deriving DecidableEq, Repr

/-- `OrderedDict` lookup by key. -/
def lookupKey (k : String × String) :
    List ((String × String) × L402Credential) → Option L402Credential
  | [] => none
  | (k2, c) :: rest => if k2 = k then some c else lookupKey k rest

/-- `del cache[key]`. -/
def eraseKey (k : String × String) (l : List ((String × String) × L402Credential)) :
    List ((String × String) × L402Credential) :=
  l.filter (fun e => e.1 != k)

/-- `CredentialCache.get`: miss, expired-purge, or LRU promotion. -/
def CredentialCache.get (c : CredentialCache) (domain path : String) (now : Int) :
    Option L402Credential × CredentialCache :=
  let key := cache_key domain path
  match lookupKey key c.entries with
  | none => (none, c)
  | some cred =>
    if cred.is_expired now then (none, { c with entries := eraseKey key c.entries })
    else (some cred, { c with entries := eraseKey key c.entries ++ [(key, cred)] })

/-- `CredentialCache.put`: default the expiry from the TTL, overwrite the
key, insert most-recently-used, evict from the front while over capacity. -/
def CredentialCache.put (c : CredentialCache) (domain path macaroon preimage : String)
    (expires_at : Option Int) (now : Int) : CredentialCache × L402Credential :=
  let key := cache_key domain path
  let exp : Option Int :=
    match expires_at, c.default_ttl with
    | none, some t => some (now + t)
    | e, _ => e
  let cred : L402Credential := ⟨macaroon, preimage, now, exp⟩
  let es := eraseKey key c.entries ++ [(key, cred)]
  ({ c with entries := es.drop (es.length - c.max_size) }, cred)

/-! ## Spending log (`spending_log.py`) -/

/-- `PaymentRecord`. -/
structure PaymentRecord where
  domain : String
  path : String
  amount_sats : Nat
  preimage : String
  timestamp : Int
  success : Bool
deriving DecidableEq, Repr

/-- `SpendingLog.record`: append one entry. -/
def spendingRecord (log : List PaymentRecord) (domain path : String) (amount_sats : Nat)
    (preimage : String) (now : Int) (success : Bool) : List PaymentRecord :=
  log ++ [⟨domain, path, amount_sats, preimage, now, success⟩]

/-! ## Request orchestrator (`L402Client.request` in `client.py`) -/

/-- An HTTP response as the orchestrator observes it. -/
structure Response where
  status : Nat
  headers : List (String × String)
deriving DecidableEq, Repr

/-- Outcome of one transport send: a response, or a raised transport
exception (which the orchestrator does not catch). -/
inductive TransportResult where
  | ok (r : Response)
  | err (msg : String)
deriving DecidableEq, Repr

/-- Outcome of `wallet.pay_invoice_sync`: a preimage, or a raised exception
that either is or is not an `L402Error`. -/
inductive WalletResult where
  | ok (preimage : String)
  | failL402 (msg : String)
  | failOther (msg : String)
deriving DecidableEq, Repr

/-- The errors `L402Client.request` can propagate. -/
inductive OrchError where
  | transportError (msg : String)
  | notAllowed (domain : String)
  | exceeded (limit_type : String) (limit_sats current_sats invoice_sats : Nat)
  | walletL402 (msg : String)
  | paymentFailed (reason : String) (bolt11 : String)
deriving DecidableEq, Repr

/-- Observable outcome of one orchestrator invocation: the returned value or
raised error, the three pieces of client state, the headers of every
transport send, and the invoice of every `PaymentPort` invocation. -/
structure RunResult where
  result : Except OrchError Response
  budget : Option BudgetController
  cache : CredentialCache
  ledger : List PaymentRecord
  sends : List (List (String × String))
  payAttempts : List String

/-- `headers["Authorization"] = v` on a Python dict kept as an ordered
association list. -/
def setHeader (hs : List (String × String)) (k v : String) : List (String × String) :=
  if hs.any (fun h => h.1 = k) then hs.map (fun h => if h.1 = k then (k, v) else h)
  else hs ++ [(k, v)]

/-- Map a check failure onto the propagated exception. -/
def budgetFailToOrch : BudgetFailure → OrchError
  | .domainNotAllowed d => .notAllowed d
  | .budgetExceeded t l c a => .exceeded t l c a

/-- Python truthiness of `amount_sats` (`None` and `0` are falsy). -/
def amountTruthy : Option Nat → Bool
  | none => false
  | some a => a != 0

/-- The tail of `L402Client.request` from the wallet call onward (the code
after the budget check passed). -/
def orchPay (budget1 : Option BudgetController) (cache1 : CredentialCache)
    (ledger0 : List PaymentRecord) (host path : String)
    (headers1 : List (String × String)) (now : Int) (ch : L402Challenge)
    (amount_sats : Option Nat) (wallet : String → WalletResult)
    (resp2 : TransportResult) : RunResult :=
  match wallet ch.invoice with
  | .failL402 m =>
    let ledger1 := if amountTruthy amount_sats then
        spendingRecord ledger0 host path (amount_sats.getD 0) "" now false
      else ledger0
    ⟨.error (.walletL402 m), budget1, cache1, ledger1, [headers1], [ch.invoice]⟩
  | .failOther m =>
    let ledger1 := if amountTruthy amount_sats then
        spendingRecord ledger0 host path (amount_sats.getD 0) "" now false
      else ledger0
    ⟨.error (.paymentFailed m ch.invoice), budget1, cache1, ledger1, [headers1], [ch.invoice]⟩
  | .ok preimage =>
    let budget2 := if amountTruthy amount_sats then
        budget1.map (fun b => b.record_payment (amount_sats.getD 0) now)
      else budget1
    let ledger1 := if amountTruthy amount_sats then
        spendingRecord ledger0 host path (amount_sats.getD 0) preimage now true
      else ledger0
    let cache2 := (cache1.put host path ch.macaroon preimage none now).1
    let headers2 := setHeader headers1 "Authorization"
      ("L402 " ++ ch.macaroon ++ ":" ++ preimage)
    let result : Except OrchError Response :=
      match resp2 with
      | .ok r2 => .ok r2
      | .err m => .error (.transportError m)
    ⟨result, budget2, cache2, ledger1, [headers1, headers2], [ch.invoice]⟩

/-- `L402Client.request` after a challenge was found on a 402 response:
amount extraction, budget check, then `orchPay`. -/
def orchChallenge (budget0 : Option BudgetController) (cache1 : CredentialCache)
    (ledger0 : List PaymentRecord) (host path : String)
    (headers1 : List (String × String)) (now : Int) (ch : L402Challenge)
    (wallet : String → WalletResult) (resp2 : TransportResult) : RunResult :=
  let amount_sats := extract_amount_sats ch.invoice
  let bres : Option BudgetFailure × Option BudgetController :=
    match budget0, amount_sats with
    | some b, some a =>
      let r := b.check a host now
      (r.1, some r.2)
    | b0, _ => (none, b0)
  match bres.1 with
  | some f => ⟨.error (budgetFailToOrch f), bres.2, cache1, ledger0, [headers1], []⟩
  | none => orchPay bres.2 cache1 ledger0 host path headers1 now ch amount_sats wallet resp2

/-- `L402Client.request`, with the transport and the wallet as oracles:
`resp1` is what the first send returns, `resp2` what the retry (if reached)
returns, `wallet` what `pay_invoice_sync` does. -/
def clientRequest (budget0 : Option BudgetController) (cache0 : CredentialCache)
    (ledger0 : List PaymentRecord) (host path : String)
    (headers0 : List (String × String)) (now : Int)
    (resp1 : TransportResult) (wallet : String → WalletResult)
    (resp2 : TransportResult) : RunResult :=
  let lk := cache0.get host path now
  let cache1 := lk.2
  let headers1 :=
    match lk.1 with
    | some cred => setHeader headers0 "Authorization" cred.authorization_header
    | none => headers0
  match resp1 with
  | .err m => ⟨.error (.transportError m), budget0, cache1, ledger0, [headers1], []⟩
  | .ok r1 =>
    if r1.status ≠ 402 then ⟨.ok r1, budget0, cache1, ledger0, [headers1], []⟩
    else
      match find_l402_challenge r1.headers with
      | none => ⟨.ok r1, budget0, cache1, ledger0, [headers1], []⟩
      | some ch => orchChallenge budget0 cache1 ledger0 host path headers1 now ch wallet resp2

/-! ## Theorems -/

/-- `_prune` only touches the payment window. -/
@[simp] theorem prune_max_hour (b : BudgetController) (now : Int) :
    (b.prune now).max_sats_per_hour = b.max_sats_per_hour := rfl

/-- `_prune` only touches the payment window. -/
@[simp] theorem prune_max_day (b : BudgetController) (now : Int) :
    (b.prune now).max_sats_per_day = b.max_sats_per_day := rfl

/-- C2: `BudgetController.check` succeeds at exact ceiling boundaries
(`sum + amount = ceiling` passes every window check), fails with kind
`per_request` when `amount > perRequest`, `per_hour` when the trailing-1h
sum plus the amount exceeds `perHour`, `per_day` when the trailing-24h sum
plus the amount exceeds `perDay`, applied in the order allow-list,
per-request, prune, per-hour, per-day (the returned controller state shows
that pruning happens only after the first two guards pass). -/
theorem check_order_and_boundary (b : BudgetController) (amount : Nat)
    (domain : String) (now : Int) :
    (allowRejects b domain = true →
      b.check amount domain now = (some (.domainNotAllowed domain), b)) ∧
    (allowRejects b domain = false → b.max_sats_per_request < amount →
      b.check amount domain now =
        (some (.budgetExceeded "per_request" b.max_sats_per_request 0 amount), b)) ∧
    (allowRejects b domain = false → amount ≤ b.max_sats_per_request →
      b.max_sats_per_hour < windowSum (b.prune now).payments (now - 3600) + amount →
      b.check amount domain now =
        (some (.budgetExceeded "per_hour" b.max_sats_per_hour
          (windowSum (b.prune now).payments (now - 3600)) amount), b.prune now)) ∧
    (allowRejects b domain = false → amount ≤ b.max_sats_per_request →
      windowSum (b.prune now).payments (now - 3600) + amount ≤ b.max_sats_per_hour →
      b.max_sats_per_day < windowSum (b.prune now).payments (now - 86400) + amount →
      b.check amount domain now =
        (some (.budgetExceeded "per_day" b.max_sats_per_day
          (windowSum (b.prune now).payments (now - 86400)) amount), b.prune now)) ∧
    (allowRejects b domain = false → amount ≤ b.max_sats_per_request →
      windowSum (b.prune now).payments (now - 3600) + amount ≤ b.max_sats_per_hour →
      windowSum (b.prune now).payments (now - 86400) + amount ≤ b.max_sats_per_day →
      b.check amount domain now = (none, b.prune now)) := by
  refine ⟨?_, ?_, ?_, ?_, ?_⟩
  · intro h1
    simp [BudgetController.check, h1]
  · intro h1 h2
    simp [BudgetController.check, h1, h2]
  · intro h1 h2 h3
    simp [BudgetController.check, h1, Nat.not_lt.mpr h2, h3]
  · intro h1 h2 h3 h4
    simp [BudgetController.check, h1, Nat.not_lt.mpr h2, Nat.not_lt.mpr h3, h4]
  · intro h1 h2 h3 h4
    simp [BudgetController.check, h1, Nat.not_lt.mpr h2, Nat.not_lt.mpr h3, Nat.not_lt.mpr h4]

/-- C2 witness: concrete boundary and over-boundary checks. -/
theorem check_order_and_boundary_witness :
    (BudgetController.check ⟨1000, 10000, 50000, none, [(100, 9000)]⟩ 1000 "a.com" 200
      = (none, ⟨1000, 10000, 50000, none, [(100, 9000)]⟩)) ∧
    (BudgetController.check ⟨1000, 10000, 50000, none, [(100, 9000)]⟩ 1001 "a.com" 200
      = (some (.budgetExceeded "per_request" 1000 0 1001),
         ⟨1000, 10000, 50000, none, [(100, 9000)]⟩)) ∧
    (BudgetController.check ⟨2000, 10000, 50000, none, [(100, 9000)]⟩ 1001 "a.com" 200
      = (some (.budgetExceeded "per_hour" 10000 9000 1001),
         ⟨2000, 10000, 50000, none, [(100, 9000)]⟩)) ∧
    (BudgetController.check ⟨2000, 60000, 50000, none, [(100, 49000)]⟩ 1001 "a.com" 200
      = (some (.budgetExceeded "per_day" 50000 49000 1001),
         ⟨2000, 60000, 50000, none, [(100, 49000)]⟩)) ∧
    (BudgetController.check ⟨1000, 10000, 50000, some ["b.com"], []⟩ 99999 "a.com" 200
      = (some (.domainNotAllowed "a.com"),
         ⟨1000, 10000, 50000, some ["b.com"], []⟩)) := by
  refine ⟨?_, ?_, ?_, ?_, ?_⟩
  · exact ((check_order_and_boundary ⟨1000, 10000, 50000, none, [(100, 9000)]⟩
      1000 "a.com" 200).2.2.2.2) (by decide) (by decide) (by decide) (by decide)
  · exact ((check_order_and_boundary ⟨1000, 10000, 50000, none, [(100, 9000)]⟩
      1001 "a.com" 200).2.1) (by decide) (by decide)
  · exact ((check_order_and_boundary ⟨2000, 10000, 50000, none, [(100, 9000)]⟩
      1001 "a.com" 200).2.2.1) (by decide) (by decide) (by decide)
  · exact ((check_order_and_boundary ⟨2000, 60000, 50000, none, [(100, 49000)]⟩
      1001 "a.com" 200).2.2.2.1) (by decide) (by decide) (by decide) (by decide)
  · exact ((check_order_and_boundary ⟨1000, 10000, 50000, some ["b.com"], []⟩
      99999 "a.com" 200).1) (by decide)

/-- C3: on any invoice the BOLT11 regex recognizes, multiplier `u` yields
`d * 100` satoshis, `m` yields `d * 100000`, `n` yields `d / 10` (truncated
`d * 0.1`), `p` yields `d / 10000` (truncated `d * 0.0001`), no multiplier
yields `d * 10^8`, and a match without digits yields `none`. -/
theorem extract_amount_sats_spec (b : String) :
    (∀ net ds, bolt11Match (normalizeInvoice b) = some (net, (some ds, some 'u')) →
      extract_amount_sats b = some (digitsToNat ds * 100)) ∧
    (∀ net ds, bolt11Match (normalizeInvoice b) = some (net, (some ds, some 'm')) →
      extract_amount_sats b = some (digitsToNat ds * 100000)) ∧
    (∀ net ds, bolt11Match (normalizeInvoice b) = some (net, (some ds, some 'n')) →
      extract_amount_sats b = some (digitsToNat ds / 10)) ∧
    (∀ net ds, bolt11Match (normalizeInvoice b) = some (net, (some ds, some 'p')) →
      extract_amount_sats b = some (digitsToNat ds / 10000)) ∧
    (∀ net ds, bolt11Match (normalizeInvoice b) = some (net, (some ds, none)) →
      extract_amount_sats b = some (digitsToNat ds * 100000000)) ∧
    (∀ net m, bolt11Match (normalizeInvoice b) = some (net, (none, m)) →
      extract_amount_sats b = none) := by
  have hne : ∀ g, bolt11Match (normalizeInvoice b) = some g → b ≠ "" := by
    rintro g h rfl
    simp [normalizeInvoice, pyStrip, bolt11Match] at h
  refine ⟨?_, ?_, ?_, ?_, ?_, ?_⟩ <;> intro net ds h <;>
    simp only [extract_amount_sats, if_neg (hne _ h), h]
  · rw [show digitsToNat ds * SATS_PER_BTC / multDen 'u' = digitsToNat ds * 100 from ?_]
    rw [show multDen 'u' = 1000000 from rfl, show SATS_PER_BTC = 100 * 1000000 from rfl,
      ← Nat.mul_assoc, Nat.mul_div_cancel _ (by norm_num)]
  · rw [show digitsToNat ds * SATS_PER_BTC / multDen 'm' = digitsToNat ds * 100000 from ?_]
    rw [show multDen 'm' = 1000 from rfl, show SATS_PER_BTC = 100000 * 1000 from rfl,
      ← Nat.mul_assoc, Nat.mul_div_cancel _ (by norm_num)]
  · rw [show digitsToNat ds * SATS_PER_BTC / multDen 'n' = digitsToNat ds / 10 from ?_]
    rw [show multDen 'n' = 10 * SATS_PER_BTC from rfl,
      Nat.mul_div_mul_right _ _ (by norm_num [SATS_PER_BTC])]
  · rw [show digitsToNat ds * SATS_PER_BTC / multDen 'p' = digitsToNat ds / 10000 from ?_]
    rw [show multDen 'p' = 10000 * SATS_PER_BTC from rfl,
      Nat.mul_div_mul_right _ _ (by norm_num [SATS_PER_BTC])]
  · rw [show SATS_PER_BTC = 100000000 from rfl]

/-- C3 witness: concrete invoices for every multiplier shape. -/
theorem extract_amount_sats_spec_witness :
    extract_amount_sats "lnbc10u1pabc" = some 1000 ∧
    extract_amount_sats "lnbc25m1q" = some 2500000 ∧
    extract_amount_sats "lnbc7n1x" = some 0 ∧
    extract_amount_sats "lnbc123456p1y" = some 12 ∧
    extract_amount_sats "lnbc11" = some 100000000 ∧
    extract_amount_sats "lnbc1pabc" = none := by
  refine ⟨?_, ?_, ?_, ?_, ?_, ?_⟩
  · exact ((extract_amount_sats_spec "lnbc10u1pabc").1 "bc".toList "10".toList (by decide))
  · exact ((extract_amount_sats_spec "lnbc25m1q").2.1 "bc".toList "25".toList (by decide))
  · exact ((extract_amount_sats_spec "lnbc7n1x").2.2.1 "bc".toList "7".toList (by decide))
  · exact ((extract_amount_sats_spec "lnbc123456p1y").2.2.2.1 "bc".toList
      "123456".toList (by decide))
  · exact ((extract_amount_sats_spec "lnbc11").2.2.2.2.1 "bc".toList "1".toList (by decide))
  · exact ((extract_amount_sats_spec "lnbc1pabc").2.2.2.2.2 "bc".toList none (by decide))

/-! ### Credential-cache lemmas -/

/-- Arguments of one `CredentialCache.put` call. -/
structure PutOp where
  dom : String
  path : String
  mac : String
  pre : String
  exp : Option Int
  now : Int

/-- A sequence of `put` calls. -/
def applyPuts (c : CredentialCache) (ops : List PutOp) : CredentialCache :=
  ops.foldl (fun c o => (c.put o.dom o.path o.mac o.pre o.exp o.now).1) c

theorem put_max_size (c : CredentialCache) (d p m pr : String) (e : Option Int)
    (now : Int) : ((c.put d p m pr e now).1).max_size = c.max_size := rfl

theorem put_length_le (c : CredentialCache) (d p m pr : String) (e : Option Int)
    (now : Int) : ((c.put d p m pr e now).1).entries.length ≤ c.max_size := by
  simp only [CredentialCache.put]
  rw [List.length_drop]
  omega

theorem lookupKey_eq_none_iff (k : String × String)
    (l : List ((String × String) × L402Credential)) :
    lookupKey k l = none ↔ ∀ e ∈ l, e.1 ≠ k := by
  induction l with
  | nil => simp [lookupKey]
  | cons e rest ih =>
    obtain ⟨k2, c⟩ := e
    by_cases h : k2 = k <;> simp [lookupKey, h, ih]

theorem mem_eraseKey (k : String × String) (l : List ((String × String) × L402Credential))
    (e : (String × String) × L402Credential) (he : e ∈ eraseKey k l) : e ∈ l ∧ e.1 ≠ k := by
  unfold eraseKey at he
  refine ⟨(List.mem_filter.1 he).1, ?_⟩
  have := (List.mem_filter.1 he).2
  simpa using this

theorem eraseKey_eq_self (k : String × String)
    (l : List ((String × String) × L402Credential)) (h : lookupKey k l = none) :
    eraseKey k l = l := by
  rw [lookupKey_eq_none_iff] at h
  unfold eraseKey
  rw [List.filter_eq_self]
  intro e he
  simpa using h e he

theorem lookupKey_append_right (k : String × String)
    (l1 l2 : List ((String × String) × L402Credential)) (h : ∀ e ∈ l1, e.1 ≠ k) :
    lookupKey k (l1 ++ l2) = lookupKey k l2 := by
  induction l1 with
  | nil => rfl
  | cons e rest ih =>
    obtain ⟨k2, c⟩ := e
    have hk2 : k2 ≠ k := h (k2, c) (by simp)
    simp only [List.cons_append, lookupKey, if_neg hk2]
    exact ih (fun e he => h e (by simp [he]))

theorem lookupKey_ne_nil (k : String × String)
    (l : List ((String × String) × L402Credential)) (c : L402Credential)
    (h : lookupKey k l = some c) : l ≠ [] := by
  intro hl
  subst hl
  simp [lookupKey] at h

theorem eraseKey_length_of_nodup (k : String × String)
    (l : List ((String × String) × L402Credential)) (c : L402Credential)
    (hnd : (l.map Prod.fst).Nodup) (h : lookupKey k l = some c) :
    (eraseKey k l).length = l.length - 1 := by
  induction l with
  | nil => simp [lookupKey] at h
  | cons e rest ih =>
    obtain ⟨k2, c2⟩ := e
    simp only [List.map_cons, List.nodup_cons] at hnd
    by_cases hk : k2 = k
    · subst hk
      have hrest : lookupKey k2 rest = none := by
        rw [lookupKey_eq_none_iff]
        intro e he hfst
        exact hnd.1 (hfst ▸ List.mem_map_of_mem Prod.fst he)
      unfold eraseKey
      simp only [List.filter_cons]
      rw [if_neg (by simp)]
      have : eraseKey k2 rest = rest := eraseKey_eq_self _ _ hrest
      unfold eraseKey at this
      rw [this]
      simp
    · simp only [lookupKey, if_neg hk] at h
      unfold eraseKey
      simp only [List.filter_cons]
      rw [if_pos (by simp [hk])]
      have hlen := ih hnd.2 h
      unfold eraseKey at hlen
      have hpos : 1 ≤ rest.length := by
        rcases rest with _ | _
        · simp [lookupKey] at h
        · simp
      simp only [List.length_cons, hlen]
      omega

theorem get_max_size (c : CredentialCache) (d p : String) (now : Int) :
    ((c.get d p now).2).max_size = c.max_size := by
  unfold CredentialCache.get
  rcases h : lookupKey (cache_key d p) c.entries with _ | cred
  · simp [h]
  · simp only [h]
    by_cases he : cred.is_expired now <;> simp [he]

/-- Overflow by one on a full list drops exactly the front element. -/
theorem drop_overflow_full (l : List ((String × String) × L402Credential))
    (x : (String × String) × L402Credential) (N : Nat) (h : l.length = N)
    (hN : 1 ≤ N) : (l ++ [x]).drop ((l ++ [x]).length - N) = l.tail ++ [x] := by
  rcases l with _ | ⟨a, t⟩
  · simp at h; omega
  · have hn : ((a :: t) ++ [x]).length - N = 1 := by
      simp only [List.length_append, List.length_cons, List.length_singleton,
        List.length_nil] at *
      omega
    rw [hn]
    simp

/-- A key sitting just before the most-recently-inserted entry survives a
front-eviction of one element. -/
theorem drop_one_append_lookup (E : List ((String × String) × L402Credential))
    (k : String × String) (cred : L402Credential)
    (x : (String × String) × L402Credential) (n : Nat)
    (hE : 1 ≤ E.length) (hk : ∀ e ∈ E, e.1 ≠ k) (hn : n = 1) :
    lookupKey k (((E ++ [(k, cred)]) ++ [x]).drop n) = some cred := by
  subst hn
  rcases E with _ | ⟨e0, E2⟩
  · simp at hE
  · simp only [List.cons_append, List.drop_succ_cons, List.drop_zero, List.append_assoc]
    rw [lookupKey_append_right _ _ _ (fun e he => hk e (by simp [he]))]
    simp [lookupKey]

/-- `put` followed by `get` of the same key at a time at which the stored
credential is not yet expired returns exactly the stored credential. -/
theorem get_put_same (c : CredentialCache) (d p m pr : String) (e : Option Int)
    (now now2 : Int) (hcap : 1 ≤ c.max_size)
    (hexp : ((c.put d p m pr e now).2).is_expired now2 = false) :
    ((c.put d p m pr e now).1.get d p now2).1 = some ((c.put d p m pr e now).2) := by
  have hlook : lookupKey (cache_key d p) ((c.put d p m pr e now).1).entries
      = some ((c.put d p m pr e now).2) := by
    simp only [CredentialCache.put]
    rw [List.drop_append_of_le_length (by simp; omega)]
    rw [lookupKey_append_right _ _ _
      (fun x hx => (mem_eraseKey _ _ _ (List.mem_of_mem_drop hx)).2)]
    simp [lookupKey]
  simp only [CredentialCache.get, hlook, hexp]
  simp

/-- C4: the credential cache never exceeds its capacity under any sequence
of `put`s; `put` followed immediately by `get` of the same `(origin, path)`
returns the stored credential (when the capacity is at least one and the
TTL, if any, is positive); `get` of an entry whose expiry has passed
returns `none` and removes the entry; inserting a fresh key into a full
cache evicts exactly the least-recently-used (front) entry; and a `get`
promotes an entry so that it survives the next overflow eviction. -/
theorem credential_cache_lru_spec :
    (∀ (c : CredentialCache) (ops : List PutOp), c.entries.length ≤ c.max_size →
      (applyPuts c ops).entries.length ≤ c.max_size) ∧
    (∀ (c : CredentialCache) (d p m pr : String) (now : Int), 1 ≤ c.max_size →
      (∀ t, c.default_ttl = some t → 0 < t) →
      ((c.put d p m pr none now).1.get d p now).1 = some ((c.put d p m pr none now).2) ∧
      ((c.put d p m pr none now).2).macaroon = m ∧
      ((c.put d p m pr none now).2).preimage = pr) ∧
    (∀ (c : CredentialCache) (d p : String) (now e : Int) (cred : L402Credential),
      lookupKey (cache_key d p) c.entries = some cred → cred.expires_at = some e →
      e ≤ now →
      c.get d p now = (none, { c with entries := eraseKey (cache_key d p) c.entries })) ∧
    (∀ (c : CredentialCache) (d p m pr : String) (e : Option Int) (now : Int),
      c.entries.length = c.max_size → 1 ≤ c.max_size →
      lookupKey (cache_key d p) c.entries = none →
      ((c.put d p m pr e now).1).entries =
        c.entries.tail ++ [(cache_key d p, (c.put d p m pr e now).2)]) ∧
    (∀ (c : CredentialCache) (d p d2 p2 m2 pr2 : String) (now now2 : Int)
      (cred : L402Credential),
      c.entries.length = c.max_size → 2 ≤ c.max_size →
      (c.entries.map Prod.fst).Nodup →
      lookupKey (cache_key d p) c.entries = some cred →
      cred.is_expired now = false →
      lookupKey (cache_key d2 p2) c.entries = none →
      cache_key d2 p2 ≠ cache_key d p →
      lookupKey (cache_key d p)
        ((((c.get d p now).2).put d2 p2 m2 pr2 none now2).1).entries = some cred) := by
  refine ⟨?_, ?_, ?_, ?_, ?_⟩
  · intro c ops
    induction ops generalizing c with
    | nil => intro h; exact h
    | cons o rest ih =>
      intro _
      have h1 := put_length_le c o.dom o.path o.mac o.pre o.exp o.now
      have h2 := ih ((c.put o.dom o.path o.mac o.pre o.exp o.now).1)
        (by rw [put_max_size]; exact h1)
      rw [put_max_size] at h2
      exact h2
  · intro c d p m pr now hcap httl
    refine ⟨get_put_same c d p m pr none now now hcap ?_, rfl, rfl⟩
    rcases hd : c.default_ttl with _ | t
    · simp [CredentialCache.put, L402Credential.is_expired, hd]
    · have ht := httl t hd
      simp only [CredentialCache.put, hd, L402Credential.is_expired]
      simp only [decide_eq_false_iff_not]
      omega
  · intro c d p now e cred hl hexp he
    have hx : cred.is_expired now = true := by
      simp [L402Credential.is_expired, hexp, he]
    simp only [CredentialCache.get, hl, hx]
    simp
  · intro c d p m pr e now hfull hcap habsent
    simp only [CredentialCache.put]
    rw [eraseKey_eq_self _ _ habsent]
    exact drop_overflow_full c.entries _ c.max_size hfull hcap
  · intro c d p d2 p2 m2 pr2 now now2 cred hfull hcap hnd hl hne habsent hkne
    have hget : (c.get d p now).2.entries =
        eraseKey (cache_key d p) c.entries ++ [(cache_key d p, cred)] := by
      simp only [CredentialCache.get, hl, hne]
      simp
    have hElen : (eraseKey (cache_key d p) c.entries).length = c.entries.length - 1 :=
      eraseKey_length_of_nodup _ _ _ hnd hl
    have habsent1 : lookupKey (cache_key d2 p2) ((c.get d p now).2).entries = none := by
      rw [hget, lookupKey_eq_none_iff]
      intro e2 he2
      rcases List.mem_append.1 he2 with h1 | h1
      · exact (lookupKey_eq_none_iff _ _).1 habsent e2 (mem_eraseKey _ _ _ h1).1
      · simp only [List.mem_singleton] at h1
        subst h1
        exact fun hq => hkne hq.symm
    have hmax : ((c.get d p now).2).max_size = c.max_size := get_max_size c d p now
    simp only [CredentialCache.put]
    rw [eraseKey_eq_self _ _ habsent1, hget]
    refine drop_one_append_lookup _ _ _ _ _ ?_ ?_ ?_
    · omega
    · exact fun e2 he2 => (mem_eraseKey _ _ _ he2).2
    · simp only [List.length_append, List.length_singleton, List.length_nil, hElen,
        hfull, hmax]
      omega


/-- C4 witness: concrete caches exercising every conjunct. -/
theorem credential_cache_lru_spec_witness :
    ((applyPuts ⟨2, some 3600, []⟩
        [⟨"a", "/x", "m1", "p1", none, 0⟩, ⟨"b", "/y", "m2", "p2", none, 1⟩,
         ⟨"c", "/z", "m3", "p3", none, 2⟩]).entries.length ≤ 2) ∧
    ((((⟨2, some 3600, []⟩ : CredentialCache).put "a" "/x" "m" "p" none 0).1.get
        "a" "/x" 0).1 =
      some (((⟨2, some 3600, []⟩ : CredentialCache).put "a" "/x" "m" "p" none 0).2)) ∧
    ((CredentialCache.get ⟨2, some 3600, [(("a", "/x"), ⟨"m", "p", 0, some 5⟩)]⟩
        "a" "/x" 5) =
      (none, { max_size := 2, default_ttl := some 3600, entries :=
        eraseKey (cache_key "a" "/x") [(("a", "/x"), ⟨"m", "p", 0, some 5⟩)] })) ∧
    (((CredentialCache.put ⟨2, some 3600,
        [(("a", "/x"), ⟨"m1", "p1", 0, none⟩), (("b", "/y"), ⟨"m2", "p2", 0, none⟩)]⟩
        "c" "/z" "m3" "p3" none 7).1).entries =
      [(("a", "/x"), (⟨"m1", "p1", 0, none⟩ : L402Credential)),
       (("b", "/y"), ⟨"m2", "p2", 0, none⟩)].tail ++
        [(cache_key "c" "/z",
          ((CredentialCache.put ⟨2, some 3600,
            [(("a", "/x"), ⟨"m1", "p1", 0, none⟩), (("b", "/y"), ⟨"m2", "p2", 0, none⟩)]⟩
            "c" "/z" "m3" "p3" none 7).2))]) ∧
    (lookupKey (cache_key "a" "/x")
      ((((CredentialCache.get ⟨2, some 3600,
          [(("a", "/x"), ⟨"m1", "p1", 0, some 10⟩), (("b", "/y"), ⟨"m2", "p2", 0, none⟩)]⟩
          "a" "/x" 0).2).put "c" "/z" "m3" "p3" none 1).1).entries =
      some ⟨"m1", "p1", 0, some 10⟩) := by
  refine ⟨?_, ?_, ?_, ?_, ?_⟩
  · exact credential_cache_lru_spec.1 ⟨2, some 3600, []⟩ _ (by decide)
  · exact (credential_cache_lru_spec.2.1 ⟨2, some 3600, []⟩ "a" "/x" "m" "p" 0
      (by decide) (fun t ht => by simp at ht; omega)).1
  · exact credential_cache_lru_spec.2.2.1
      ⟨2, some 3600, [(("a", "/x"), ⟨"m", "p", 0, some 5⟩)]⟩ "a" "/x" 5 5
      ⟨"m", "p", 0, some 5⟩ (by decide) rfl (by decide)
  · exact credential_cache_lru_spec.2.2.2.1
      ⟨2, some 3600, [(("a", "/x"), ⟨"m1", "p1", 0, none⟩),
        (("b", "/y"), ⟨"m2", "p2", 0, none⟩)]⟩ "c" "/z" "m3" "p3" none 7
      (by decide) (by decide) (by decide)
  · exact credential_cache_lru_spec.2.2.2.2
      ⟨2, some 3600, [(("a", "/x"), ⟨"m1", "p1", 0, some 10⟩),
        (("b", "/y"), ⟨"m2", "p2", 0, none⟩)]⟩ "a" "/x" "c" "/z" "m3" "p3" 0 1
      ⟨"m1", "p1", 0, some 10⟩ (by decide) (by decide) (by decide) (by decide)
      (by decide) (by decide) (by decide)

/-! ### Orchestrator branch equations -/

/-- The headers actually sent first: cached credential attached on a hit. -/
def lookedUpHeaders (cache0 : CredentialCache) (host path : String) (now : Int)
    (headers0 : List (String × String)) : List (String × String) :=
  match (cache0.get host path now).1 with
  | some cred => setHeader headers0 "Authorization" cred.authorization_header
  | none => headers0

theorem clientRequest_err (budget0 : Option BudgetController) (cache0 : CredentialCache)
    (ledger0 : List PaymentRecord) (host path : String)
    (headers0 : List (String × String)) (now : Int) (m : String)
    (wallet : String → WalletResult) (resp2 : TransportResult) :
    clientRequest budget0 cache0 ledger0 host path headers0 now (.err m) wallet resp2 =
      ⟨.error (.transportError m), budget0, (cache0.get host path now).2, ledger0,
       [lookedUpHeaders cache0 host path now headers0], []⟩ := by
  simp only [clientRequest, lookedUpHeaders]

theorem clientRequest_non402 (budget0 : Option BudgetController)
    (cache0 : CredentialCache) (ledger0 : List PaymentRecord) (host path : String)
    (headers0 : List (String × String)) (now : Int) (r1 : Response)
    (wallet : String → WalletResult) (resp2 : TransportResult)
    (h4 : r1.status ≠ 402) :
    clientRequest budget0 cache0 ledger0 host path headers0 now (.ok r1) wallet resp2 =
      ⟨.ok r1, budget0, (cache0.get host path now).2, ledger0,
       [lookedUpHeaders cache0 host path now headers0], []⟩ := by
  simp only [clientRequest, lookedUpHeaders]
  simp [h4]

theorem clientRequest_nochallenge (budget0 : Option BudgetController)
    (cache0 : CredentialCache) (ledger0 : List PaymentRecord) (host path : String)
    (headers0 : List (String × String)) (now : Int) (r1 : Response)
    (wallet : String → WalletResult) (resp2 : TransportResult)
    (h4 : r1.status = 402) (hf : find_l402_challenge r1.headers = none) :
    clientRequest budget0 cache0 ledger0 host path headers0 now (.ok r1) wallet resp2 =
      ⟨.ok r1, budget0, (cache0.get host path now).2, ledger0,
       [lookedUpHeaders cache0 host path now headers0], []⟩ := by
  simp only [clientRequest, lookedUpHeaders, hf]
  simp [h4]

theorem clientRequest_challenge (budget0 : Option BudgetController)
    (cache0 : CredentialCache) (ledger0 : List PaymentRecord) (host path : String)
    (headers0 : List (String × String)) (now : Int) (r1 : Response)
    (ch : L402Challenge) (wallet : String → WalletResult) (resp2 : TransportResult)
    (h4 : r1.status = 402) (hf : find_l402_challenge r1.headers = some ch) :
    clientRequest budget0 cache0 ledger0 host path headers0 now (.ok r1) wallet resp2 =
      orchChallenge budget0 (cache0.get host path now).2 ledger0 host path
        (lookedUpHeaders cache0 host path now headers0) now ch wallet resp2 := by
  simp only [clientRequest, lookedUpHeaders, hf]
  simp [h4]

theorem orchChallenge_budget_fail (budget0 : Option BudgetController)
    (cache1 : CredentialCache) (ledger0 : List PaymentRecord) (host path : String)
    (headers1 : List (String × String)) (now : Int) (ch : L402Challenge)
    (wallet : String → WalletResult) (resp2 : TransportResult)
    (b : BudgetController) (a : Nat) (f : BudgetFailure)
    (hb : budget0 = some b) (ha : extract_amount_sats ch.invoice = some a)
    (hc : (b.check a host now).1 = some f) :
    orchChallenge budget0 cache1 ledger0 host path headers1 now ch wallet resp2 =
      ⟨.error (budgetFailToOrch f), some (b.check a host now).2, cache1, ledger0,
       [headers1], []⟩ := by
  subst hb
  simp only [orchChallenge, ha, hc]

theorem orchChallenge_budget_ok (budget0 : Option BudgetController)
    (cache1 : CredentialCache) (ledger0 : List PaymentRecord) (host path : String)
    (headers1 : List (String × String)) (now : Int) (ch : L402Challenge)
    (wallet : String → WalletResult) (resp2 : TransportResult)
    (b : BudgetController) (a : Nat)
    (hb : budget0 = some b) (ha : extract_amount_sats ch.invoice = some a)
    (hc : (b.check a host now).1 = none) :
    orchChallenge budget0 cache1 ledger0 host path headers1 now ch wallet resp2 =
      orchPay (some (b.check a host now).2) cache1 ledger0 host path headers1 now ch
        (some a) wallet resp2 := by
  subst hb
  simp only [orchChallenge, ha, hc]

theorem orchChallenge_no_budget (cache1 : CredentialCache)
    (ledger0 : List PaymentRecord) (host path : String)
    (headers1 : List (String × String)) (now : Int) (ch : L402Challenge)
    (wallet : String → WalletResult) (resp2 : TransportResult) :
    orchChallenge none cache1 ledger0 host path headers1 now ch wallet resp2 =
      orchPay none cache1 ledger0 host path headers1 now ch
        (extract_amount_sats ch.invoice) wallet resp2 := by
  simp only [orchChallenge]

theorem orchChallenge_no_amount (budget0 : Option BudgetController)
    (cache1 : CredentialCache) (ledger0 : List PaymentRecord) (host path : String)
    (headers1 : List (String × String)) (now : Int) (ch : L402Challenge)
    (wallet : String → WalletResult) (resp2 : TransportResult)
    (ha : extract_amount_sats ch.invoice = none) :
    orchChallenge budget0 cache1 ledger0 host path headers1 now ch wallet resp2 =
      orchPay budget0 cache1 ledger0 host path headers1 now ch none wallet resp2 := by
  simp only [orchChallenge, ha]

theorem orchPay_ok (budget1 : Option BudgetController) (cache1 : CredentialCache)
    (ledger0 : List PaymentRecord) (host path : String)
    (headers1 : List (String × String)) (now : Int) (ch : L402Challenge)
    (amount_sats : Option Nat) (wallet : String → WalletResult)
    (resp2 : TransportResult) (p : String) (hw : wallet ch.invoice = .ok p) :
    orchPay budget1 cache1 ledger0 host path headers1 now ch amount_sats wallet resp2 =
      ⟨(match resp2 with
        | .ok r2 => .ok r2
        | .err m => .error (.transportError m)),
       (if amountTruthy amount_sats then
          budget1.map (fun b => b.record_payment (amount_sats.getD 0) now)
        else budget1),
       (cache1.put host path ch.macaroon p none now).1,
       (if amountTruthy amount_sats then
          spendingRecord ledger0 host path (amount_sats.getD 0) p now true
        else ledger0),
       [headers1, setHeader headers1 "Authorization" ("L402 " ++ ch.macaroon ++ ":" ++ p)],
       [ch.invoice]⟩ := by
  simp only [orchPay, hw]

theorem orchPay_failL402 (budget1 : Option BudgetController) (cache1 : CredentialCache)
    (ledger0 : List PaymentRecord) (host path : String)
    (headers1 : List (String × String)) (now : Int) (ch : L402Challenge)
    (amount_sats : Option Nat) (wallet : String → WalletResult)
    (resp2 : TransportResult) (m : String) (hw : wallet ch.invoice = .failL402 m) :
    orchPay budget1 cache1 ledger0 host path headers1 now ch amount_sats wallet resp2 =
      ⟨.error (.walletL402 m), budget1, cache1,
       (if amountTruthy amount_sats then
          spendingRecord ledger0 host path (amount_sats.getD 0) "" now false
        else ledger0),
       [headers1], [ch.invoice]⟩ := by
  simp only [orchPay, hw]

theorem orchPay_failOther (budget1 : Option BudgetController) (cache1 : CredentialCache)
    (ledger0 : List PaymentRecord) (host path : String)
    (headers1 : List (String × String)) (now : Int) (ch : L402Challenge)
    (amount_sats : Option Nat) (wallet : String → WalletResult)
    (resp2 : TransportResult) (m : String) (hw : wallet ch.invoice = .failOther m) :
    orchPay budget1 cache1 ledger0 host path headers1 now ch amount_sats wallet resp2 =
      ⟨.error (.paymentFailed m ch.invoice), budget1, cache1,
       (if amountTruthy amount_sats then
          spendingRecord ledger0 host path (amount_sats.getD 0) "" now false
        else ledger0),
       [headers1], [ch.invoice]⟩ := by
  simp only [orchPay, hw]

theorem orchPay_payAttempts (budget1 : Option BudgetController)
    (cache1 : CredentialCache) (ledger0 : List PaymentRecord) (host path : String)
    (headers1 : List (String × String)) (now : Int) (ch : L402Challenge)
    (amount_sats : Option Nat) (wallet : String → WalletResult)
    (resp2 : TransportResult) :
    (orchPay budget1 cache1 ledger0 host path headers1 now ch amount_sats wallet
      resp2).payAttempts = [ch.invoice] := by
  rcases hw : wallet ch.invoice with p | m | m <;> simp [orchPay, hw]

/-- `check` either leaves the window untouched (allow-list or per-request
failure) or prunes it; it never appends. -/
theorem check_snd_cases (b : BudgetController) (a : Nat) (d : String) (now : Int) :
    (b.check a d now).2 = b ∨ (b.check a d now).2 = b.prune now := by
  unfold BudgetController.check
  split
  · left; rfl
  · split
    · left; rfl
    · right
      dsimp only
      split
      · rfl
      · split <;> rfl

theorem get_default_ttl (c : CredentialCache) (d p : String) (now : Int) :
    ((c.get d p now).2).default_ttl = c.default_ttl := by
  unfold CredentialCache.get
  rcases h : lookupKey (cache_key d p) c.entries with _ | cred
  · simp [h]
  · simp only [h]
    by_cases he : cred.is_expired now <;> simp [he]

theorem lookupKey_put_self (c : CredentialCache) (d p m pr : String) (e : Option Int)
    (now : Int) (hcap : 1 ≤ c.max_size) :
    lookupKey (cache_key d p) ((c.put d p m pr e now).1).entries =
      some ((c.put d p m pr e now).2) := by
  simp only [CredentialCache.put]
  rw [List.drop_append_of_le_length (by simp; omega)]
  rw [lookupKey_append_right _ _ _
    (fun x hx => (mem_eraseKey _ _ _ (List.mem_of_mem_drop hx)).2)]
  simp [lookupKey]

/-- Inversion: a run that invoked the wallet went through a 402 response, a
parsed challenge, and a passing (or absent, or amount-less) budget check. -/
theorem clientRequest_pay_inversion (budget0 : Option BudgetController)
    (cache0 : CredentialCache) (ledger0 : List PaymentRecord) (host path : String)
    (headers0 : List (String × String)) (now : Int) (resp1 : TransportResult)
    (wallet : String → WalletResult) (resp2 : TransportResult) (r : RunResult)
    (inv : String)
    (h : clientRequest budget0 cache0 ledger0 host path headers0 now resp1 wallet
      resp2 = r)
    (hpa : r.payAttempts = [inv]) :
    ∃ r1 ch, resp1 = .ok r1 ∧ r1.status = 402 ∧
      find_l402_challenge r1.headers = some ch ∧ ch.invoice = inv ∧
      ∃ budget1, r = orchPay budget1 (cache0.get host path now).2 ledger0 host path
          (lookedUpHeaders cache0 host path now headers0) now ch
          (extract_amount_sats ch.invoice) wallet resp2 ∧
        ((budget0 = none ∧ budget1 = none) ∨
         (∃ b, budget0 = some b ∧ extract_amount_sats ch.invoice = none ∧
            budget1 = some b) ∨
         (∃ b a, budget0 = some b ∧ extract_amount_sats ch.invoice = some a ∧
            (b.check a host now).1 = none ∧ budget1 = some (b.check a host now).2)) := by
  subst h
  rcases resp1 with r1 | m
  · by_cases h4 : r1.status = 402
    · rcases hf : find_l402_challenge r1.headers with _ | ch
      · rw [clientRequest_nochallenge _ _ _ _ _ _ _ _ _ _ h4 hf] at hpa
        simp at hpa
      · rw [clientRequest_challenge _ _ _ _ _ _ _ _ _ _ _ h4 hf] at hpa ⊢
        have hinv : ch.invoice = inv := by
          rcases hb : budget0 with _ | b
          · rw [hb, orchChallenge_no_budget] at hpa
            rw [orchPay_payAttempts] at hpa
            simpa using hpa
          · rcases ha : extract_amount_sats ch.invoice with _ | a
            · rw [orchChallenge_no_amount _ _ _ _ _ _ _ _ _ _ ha] at hpa
              rw [orchPay_payAttempts] at hpa
              simpa using hpa
            · rcases hc : (b.check a host now).1 with _ | f
              · rw [orchChallenge_budget_ok _ _ _ _ _ _ _ _ _ _ _ _ hb ha hc] at hpa
                rw [orchPay_payAttempts] at hpa
                simpa using hpa
              · rw [orchChallenge_budget_fail _ _ _ _ _ _ _ _ _ _ _ _ _ hb ha hc] at hpa
                simp at hpa
        refine ⟨r1, ch, rfl, h4, hf, hinv, ?_⟩
        rcases hb : budget0 with _ | b
        · exact ⟨none, by rw [orchChallenge_no_budget], Or.inl ⟨rfl, rfl⟩⟩
        · rcases ha : extract_amount_sats ch.invoice with _ | a
          · exact ⟨some b, by rw [orchChallenge_no_amount _ _ _ _ _ _ _ _ _ _ ha],
              Or.inr (Or.inl ⟨b, rfl, rfl, rfl⟩)⟩
          · rcases hc : (b.check a host now).1 with _ | f
            · refine ⟨some (b.check a host now).2,
                by rw [orchChallenge_budget_ok _ _ _ _ _ _ _ _ _ _ _ _ rfl ha hc],
                Or.inr (Or.inr ⟨b, a, rfl, rfl, hc, rfl⟩)⟩
            · rw [orchChallenge_budget_fail _ _ _ _ _ _ _ _ _ _ _ _ _ hb ha hc] at hpa
              simp at hpa
    · rw [clientRequest_non402 _ _ _ _ _ _ _ _ _ _ h4] at hpa
      simp at hpa
  · rw [clientRequest_err] at hpa
    simp at hpa

theorem orchPay_one_retry (budget1 : Option BudgetController)
    (cache1 : CredentialCache) (ledger0 : List PaymentRecord) (host path : String)
    (headers1 : List (String × String)) (now : Int) (ch : L402Challenge)
    (am : Option Nat) (wallet : String → WalletResult) (resp2 : TransportResult)
    (r : RunResult)
    (hr : orchPay budget1 cache1 ledger0 host path headers1 now ch am wallet resp2 = r) :
    r.payAttempts.length ≤ 1 ∧ r.sends.length ≤ 2 ∧
    (∀ inv p, r.payAttempts = [inv] → wallet inv = .ok p →
      ∃ h1 mac, r.sends = [h1, setHeader h1 "Authorization"
        ("L402 " ++ mac ++ ":" ++ p)]) ∧
    (r.sends.length = 2 →
      (∀ r2, resp2 = .ok r2 → r.result = .ok r2) ∧
      (∀ m, resp2 = .err m → r.result = .error (.transportError m))) := by
  subst hr
  rcases hw : wallet ch.invoice with p | m | m
  · rw [orchPay_ok _ _ _ _ _ _ _ _ _ _ _ p hw]
    refine ⟨by simp, by simp, ?_, ?_⟩
    · intro inv p2 hpa hw2
      simp only [List.cons.injEq, and_true] at hpa
      rw [← hpa] at hw2
      rw [hw] at hw2
      cases hw2
      exact ⟨headers1, ch.macaroon, rfl⟩
    · intro _
      constructor
      · rintro r2 rfl; rfl
      · rintro m rfl; rfl
  · rw [orchPay_failL402 _ _ _ _ _ _ _ _ _ _ _ _ hw]
    refine ⟨by simp, by simp, ?_, by intro h2; simp at h2⟩
    intro inv p2 hpa hw2
    simp only [List.cons.injEq, and_true] at hpa
    rw [← hpa, hw] at hw2
    cases hw2
  · rw [orchPay_failOther _ _ _ _ _ _ _ _ _ _ _ _ hw]
    refine ⟨by simp, by simp, ?_, by intro h2; simp at h2⟩
    intro inv p2 hpa hw2
    simp only [List.cons.injEq, and_true] at hpa
    rw [← hpa, hw] at hw2
    cases hw2

/-- C6: one orchestrator invocation makes at most one payment and at most
two transport sends (the original and at most one retry); after a
successful payment the retry carries the freshly built authorization
header, and the retry's outcome — response or transport error — becomes
the invocation's result verbatim. -/
theorem one_payment_one_retry (budget0 : Option BudgetController)
    (cache0 : CredentialCache) (ledger0 : List PaymentRecord) (host path : String)
    (headers0 : List (String × String)) (now : Int) (resp1 : TransportResult)
    (wallet : String → WalletResult) (resp2 : TransportResult) (r : RunResult)
    (h : clientRequest budget0 cache0 ledger0 host path headers0 now resp1 wallet
      resp2 = r) :
    r.payAttempts.length ≤ 1 ∧ r.sends.length ≤ 2 ∧
    (∀ inv p, r.payAttempts = [inv] → wallet inv = .ok p →
      ∃ h1 mac, r.sends = [h1, setHeader h1 "Authorization"
        ("L402 " ++ mac ++ ":" ++ p)]) ∧
    (r.sends.length = 2 →
      (∀ r2, resp2 = .ok r2 → r.result = .ok r2) ∧
      (∀ m, resp2 = .err m → r.result = .error (.transportError m))) := by
  subst h
  rcases resp1 with r1 | m
  · by_cases h4 : r1.status = 402
    · rcases hf : find_l402_challenge r1.headers with _ | ch
      · rw [clientRequest_nochallenge _ _ _ _ _ _ _ _ _ _ h4 hf]
        refine ⟨by simp, by simp, by intro inv p hpa _; simp at hpa,
          by intro h2; simp at h2⟩
      · rw [clientRequest_challenge _ _ _ _ _ _ _ _ _ _ _ h4 hf]
        rcases hb : budget0 with _ | b
        · rw [orchChallenge_no_budget]
          exact orchPay_one_retry _ _ _ _ _ _ _ _ _ _ _ _ rfl
        · rcases ha : extract_amount_sats ch.invoice with _ | a
          · rw [orchChallenge_no_amount _ _ _ _ _ _ _ _ _ _ ha]
            exact orchPay_one_retry _ _ _ _ _ _ _ _ _ _ _ _ rfl
          · rcases hc : (b.check a host now).1 with _ | f
            · rw [orchChallenge_budget_ok _ _ _ _ _ _ _ _ _ _ _ _ rfl ha hc]
              exact orchPay_one_retry _ _ _ _ _ _ _ _ _ _ _ _ rfl
            · rw [orchChallenge_budget_fail _ _ _ _ _ _ _ _ _ _ _ _ _ rfl ha hc]
              refine ⟨by simp, by simp, by intro inv p hpa _; simp at hpa,
                by intro h2; simp at h2⟩
    · rw [clientRequest_non402 _ _ _ _ _ _ _ _ _ _ h4]
      refine ⟨by simp, by simp, by intro inv p hpa _; simp at hpa,
        by intro h2; simp at h2⟩
  · rw [clientRequest_err]
    refine ⟨by simp, by simp, by intro inv p hpa _; simp at hpa,
      by intro h2; simp at h2⟩

/-- C6 witness: the concrete pay-and-retry run makes one payment and two
sends, and returns the retry response verbatim. -/
theorem one_payment_one_retry_witness :
    let r := clientRequest (some {}) ⟨256, some 3600, []⟩ [] "api.example.com" "/a/b"
      [] 0
      (.ok ⟨402, [("WWW-Authenticate", "L402 macaroon=\"m\", invoice=\"lnbc10u1p\"")]⟩)
      (fun _ => .ok "pre") (.ok ⟨200, []⟩)
    r.payAttempts.length ≤ 1 ∧ r.sends.length ≤ 2 ∧
    (∀ inv p, r.payAttempts = [inv] → (fun _ => WalletResult.ok "pre") inv = .ok p →
      ∃ h1 mac, r.sends = [h1, setHeader h1 "Authorization"
        ("L402 " ++ mac ++ ":" ++ p)]) ∧
    (r.sends.length = 2 →
      (∀ r2, TransportResult.ok ⟨200, []⟩ = .ok r2 → r.result = .ok r2) ∧
      (∀ m, TransportResult.ok ⟨200, []⟩ = .err m →
        r.result = .error (.transportError m))) :=
  one_payment_one_retry (some {}) ⟨256, some 3600, []⟩ [] "api.example.com" "/a/b"
    [] 0 (.ok ⟨402, [("WWW-Authenticate", "L402 macaroon=\"m\", invoice=\"lnbc10u1p\"")]⟩)
    (fun _ => .ok "pre") (.ok ⟨200, []⟩) _ rfl

/-- C7: the header-scanning lookup returns `none` (it cannot raise) when
the conventional header is absent/empty or its value does not parse, and a
402 response without a parsable challenge is returned to the caller
unchanged with zero payments, zero ledger entries and a single send. -/
theorem nochallenge_passthrough :
    (∀ hs, (headerLookup hs "www-authenticate").getD "" = "" →
      find_l402_challenge hs = none) ∧
    (∀ hs e, parse_challenge ((headerLookup hs "www-authenticate").getD "") = .error e →
      find_l402_challenge hs = none) ∧
    (∀ (budget0 : Option BudgetController) (cache0 : CredentialCache)
      (ledger0 : List PaymentRecord) (host path : String)
      (headers0 : List (String × String)) (now : Int) (r1 : Response)
      (wallet : String → WalletResult) (resp2 : TransportResult) (r : RunResult),
      clientRequest budget0 cache0 ledger0 host path headers0 now (.ok r1) wallet
        resp2 = r →
      r1.status = 402 → find_l402_challenge r1.headers = none →
      r.result = .ok r1 ∧ r.payAttempts = [] ∧ r.ledger = ledger0 ∧
        r.sends.length = 1) := by
  refine ⟨?_, ?_, ?_⟩
  · intro hs h
    simp [find_l402_challenge, h]
  · intro hs e h
    by_cases hw : (headerLookup hs "www-authenticate").getD "" = ""
    · simp [find_l402_challenge, hw]
    · simp [find_l402_challenge, hw, h]
  · intro budget0 cache0 ledger0 host path headers0 now r1 wallet resp2 r h h4 hf
    subst h
    rw [clientRequest_nochallenge _ _ _ _ _ _ _ _ _ _ h4 hf]
    exact ⟨rfl, rfl, rfl, rfl⟩

/-- C7 witness: a 402 with an unparsable challenge header passes through
with zero payments. -/
theorem nochallenge_passthrough_witness :
    find_l402_challenge [("X-Other", "v")] = none ∧
    find_l402_challenge [("WWW-Authenticate", "Bearer xyz")] = none ∧
    (let r := clientRequest (some {}) ⟨256, some 3600, []⟩ [] "api.example.com" "/a"
        [] 0 (.ok ⟨402, [("WWW-Authenticate", "Bearer xyz")]⟩)
        (fun _ => .ok "pre") (.ok ⟨200, []⟩);
      r.result = .ok ⟨402, [("WWW-Authenticate", "Bearer xyz")]⟩ ∧ r.payAttempts = [] ∧
        r.ledger = [] ∧ r.sends.length = 1) := by
  refine ⟨?_, ?_, ?_⟩
  · exact nochallenge_passthrough.1 [("X-Other", "v")] (by decide)
  · exact nochallenge_passthrough.2.1 [("WWW-Authenticate", "Bearer xyz")]
      .noMatch rfl
  · exact nochallenge_passthrough.2.2 (some {}) ⟨256, some 3600, []⟩ []
      "api.example.com" "/a" [] 0 ⟨402, [("WWW-Authenticate", "Bearer xyz")]⟩
      (fun _ => .ok "pre") (.ok ⟨200, []⟩) _ rfl rfl (by decide)

/-- C5 (amended): when the budget check fails, the error propagates with no
payment attempted, no ledger entry, no retry, and no budget-window entry
appended (the window is at most pruned); the credential cache is exactly
the state left by the initial cache lookup — which may itself have purged
an expired entry or promoted a hit — and no credential is stored. -/
theorem budget_failure_no_side_effects (budget0 : Option BudgetController)
    (cache0 : CredentialCache) (ledger0 : List PaymentRecord) (host path : String)
    (headers0 : List (String × String)) (now : Int) (resp1 : TransportResult)
    (wallet : String → WalletResult) (resp2 : TransportResult) (r : RunResult)
    (h : clientRequest budget0 cache0 ledger0 host path headers0 now resp1 wallet
      resp2 = r)
    (hfail : (∃ d, r.result = .error (.notAllowed d)) ∨
      (∃ k l cur q, r.result = .error (.exceeded k l cur q))) :
    r.payAttempts = [] ∧ r.ledger = ledger0 ∧ r.sends.length = 1 ∧
    r.cache = (cache0.get host path now).2 ∧
    (∃ b, budget0 = some b ∧ (r.budget = some b ∨ r.budget = some (b.prune now))) := by
  subst h
  rcases resp1 with r1 | m
  · by_cases h4 : r1.status = 402
    · rcases hf : find_l402_challenge r1.headers with _ | ch
      · rw [clientRequest_nochallenge _ _ _ _ _ _ _ _ _ _ h4 hf] at hfail
        rcases hfail with ⟨d, hd⟩ | ⟨k, l, cur, q, hd⟩ <;> simp at hd
      · rw [clientRequest_challenge _ _ _ _ _ _ _ _ _ _ _ h4 hf] at hfail ⊢
        rcases hb : budget0 with _ | b
        · rw [hb] at hfail
          rw [orchChallenge_no_budget] at hfail ⊢
          rcases hw : wallet ch.invoice with p | m | m
          · rw [orchPay_ok _ _ _ _ _ _ _ _ _ _ _ _ hw] at hfail
            rcases resp2 with r2 | m2 <;>
              rcases hfail with ⟨d, hd⟩ | ⟨k, l, cur, q, hd⟩ <;> simp at hd
          · rw [orchPay_failL402 _ _ _ _ _ _ _ _ _ _ _ _ hw] at hfail
            rcases hfail with ⟨d, hd⟩ | ⟨k, l, cur, q, hd⟩ <;> simp at hd
          · rw [orchPay_failOther _ _ _ _ _ _ _ _ _ _ _ _ hw] at hfail
            rcases hfail with ⟨d, hd⟩ | ⟨k, l, cur, q, hd⟩ <;> simp at hd
        · rcases ha : extract_amount_sats ch.invoice with _ | a
          · rw [orchChallenge_no_amount _ _ _ _ _ _ _ _ _ _ ha] at hfail ⊢
            rcases hw : wallet ch.invoice with p | m | m
            · rw [orchPay_ok _ _ _ _ _ _ _ _ _ _ _ _ hw] at hfail
              rcases resp2 with r2 | m2 <;>
                rcases hfail with ⟨d, hd⟩ | ⟨k, l, cur, q, hd⟩ <;> simp at hd
            · rw [orchPay_failL402 _ _ _ _ _ _ _ _ _ _ _ _ hw] at hfail
              rcases hfail with ⟨d, hd⟩ | ⟨k, l, cur, q, hd⟩ <;> simp at hd
            · rw [orchPay_failOther _ _ _ _ _ _ _ _ _ _ _ _ hw] at hfail
              rcases hfail with ⟨d, hd⟩ | ⟨k, l, cur, q, hd⟩ <;> simp at hd
          · rcases hc : (b.check a host now).1 with _ | f
            · rw [orchChallenge_budget_ok _ _ _ _ _ _ _ _ _ _ _ _ hb ha hc] at hfail
              rcases hw : wallet ch.invoice with p | m | m
              · rw [orchPay_ok _ _ _ _ _ _ _ _ _ _ _ _ hw] at hfail
                rcases resp2 with r2 | m2 <;>
                  rcases hfail with ⟨d, hd⟩ | ⟨k, l, cur, q, hd⟩ <;> simp at hd
              · rw [orchPay_failL402 _ _ _ _ _ _ _ _ _ _ _ _ hw] at hfail
                rcases hfail with ⟨d, hd⟩ | ⟨k, l, cur, q, hd⟩ <;> simp at hd
              · rw [orchPay_failOther _ _ _ _ _ _ _ _ _ _ _ _ hw] at hfail
                rcases hfail with ⟨d, hd⟩ | ⟨k, l, cur, q, hd⟩ <;> simp at hd
            · rw [orchChallenge_budget_fail _ _ _ _ _ _ _ _ _ _ _ _ _ rfl ha hc]
              rcases check_snd_cases b a host now with hcs | hcs
              · exact ⟨rfl, rfl, rfl, rfl, b, rfl, Or.inl (congrArg some hcs)⟩
              · exact ⟨rfl, rfl, rfl, rfl, b, rfl, Or.inr (congrArg some hcs)⟩
    · rw [clientRequest_non402 _ _ _ _ _ _ _ _ _ _ h4] at hfail
      rcases hfail with ⟨d, hd⟩ | ⟨k, l, cur, q, hd⟩ <;> simp at hd
  · rw [clientRequest_err] at hfail
    rcases hfail with ⟨d, hd⟩ | ⟨k, l, cur, q, hd⟩ <;> simp at hd

/-- C5 witness: a per-request budget failure propagates with no payment, no
ledger entry and no retry. -/
theorem budget_failure_no_side_effects_witness :
    let r := clientRequest (some ⟨0, 10000, 50000, none, []⟩) ⟨256, some 3600, []⟩ []
      "api.example.com" "/a/b" [] 10
      (.ok ⟨402, [("WWW-Authenticate", "L402 macaroon=\"m\", invoice=\"lnbc5u1x\"")]⟩)
      (fun _ => .ok "pre") (.ok ⟨200, []⟩);
    r.payAttempts = [] ∧ r.ledger = [] ∧ r.sends.length = 1 ∧
    r.cache = ((⟨256, some 3600, []⟩ : CredentialCache).get "api.example.com" "/a/b" 10).2 ∧
    (∃ b, (some ⟨0, 10000, 50000, none, []⟩ : Option BudgetController) = some b ∧
      (r.budget = some b ∨ r.budget = some (b.prune 10))) := by
  refine budget_failure_no_side_effects (some ⟨0, 10000, 50000, none, []⟩)
    ⟨256, some 3600, []⟩ [] "api.example.com" "/a/b" [] 10
    (.ok ⟨402, [("WWW-Authenticate", "L402 macaroon=\"m\", invoice=\"lnbc5u1x\"")]⟩)
    (fun _ => .ok "pre") (.ok ⟨200, []⟩) _ rfl (Or.inr ⟨"per_request", 0, 0, 500, ?_⟩)
  rfl

/-- C5 counterexample to the claim as stated: with an expired cached
credential under the request's cache key, a run that fails the budget check
still purges that cache entry during the initial lookup, so the observable
state is NOT unchanged-except-budget-pruning. -/
theorem budget_failure_state_change_counterexample :
    let r := clientRequest (some ⟨0, 10000, 50000, none, []⟩)
      ⟨256, some 3600, [(("api.example.com", "/a/b"), ⟨"m0", "p0", 0, some 5⟩)]⟩ []
      "api.example.com" "/a/b/c" [] 10
      (.ok ⟨402, [("WWW-Authenticate", "L402 macaroon=\"m\", invoice=\"lnbc5u1x\"")]⟩)
      (fun _ => .ok "pre") (.ok ⟨200, []⟩);
    r.result = .error (.exceeded "per_request" 0 0 500) ∧
    r.payAttempts = [] ∧ r.ledger = [] ∧
    ([(("api.example.com", "/a/b"), (⟨"m0", "p0", 0, some 5⟩ : L402Credential))] ≠ []) ∧
    r.cache.entries = [] := by
  refine ⟨?_, ?_, ?_, by decide, ?_⟩ <;> rfl

/-- C1 (amended): for every completed payment attempt, when a nonzero
amount was extracted from the invoice exactly one PaymentRecord is appended
— success with the preimage on success, failure with empty preimage on
either kind of wallet failure; when no amount (or amount zero) was
extracted, no record is appended. -/
theorem ledger_one_entry_per_attempt (budget0 : Option BudgetController)
    (cache0 : CredentialCache) (ledger0 : List PaymentRecord) (host path : String)
    (headers0 : List (String × String)) (now : Int) (resp1 : TransportResult)
    (wallet : String → WalletResult) (resp2 : TransportResult) (r : RunResult)
    (inv : String)
    (h : clientRequest budget0 cache0 ledger0 host path headers0 now resp1 wallet
      resp2 = r)
    (hpa : r.payAttempts = [inv]) :
    (amountTruthy (extract_amount_sats inv) = false → r.ledger = ledger0) ∧
    (∀ a, extract_amount_sats inv = some a → a ≠ 0 →
      (∀ p, wallet inv = .ok p →
        r.ledger = ledger0 ++ [⟨host, path, a, p, now, true⟩]) ∧
      (∀ m, wallet inv = .failL402 m →
        r.ledger = ledger0 ++ [⟨host, path, a, "", now, false⟩]) ∧
      (∀ m, wallet inv = .failOther m →
        r.ledger = ledger0 ++ [⟨host, path, a, "", now, false⟩])) := by
  obtain ⟨r1, ch, -, -, -, hinv, budget1, hr, -⟩ :=
    clientRequest_pay_inversion budget0 cache0 ledger0 host path headers0 now resp1
      wallet resp2 r inv h hpa
  subst hinv
  subst hr
  constructor
  · intro htr
    rcases hw : wallet ch.invoice with p | m | m
    · rw [orchPay_ok _ _ _ _ _ _ _ _ _ _ _ _ hw]
      simp [htr]
    · rw [orchPay_failL402 _ _ _ _ _ _ _ _ _ _ _ _ hw]
      simp [htr]
    · rw [orchPay_failOther _ _ _ _ _ _ _ _ _ _ _ _ hw]
      simp [htr]
  · intro a ha ha0
    have htr : amountTruthy (extract_amount_sats ch.invoice) = true := by
      simp [ha, amountTruthy, ha0]
    refine ⟨?_, ?_, ?_⟩
    · intro p hw
      rw [orchPay_ok _ _ _ _ _ _ _ _ _ _ _ _ hw]
      simp [spendingRecord, ha, amountTruthy, ha0]
    · intro m hw
      rw [orchPay_failL402 _ _ _ _ _ _ _ _ _ _ _ _ hw]
      simp [spendingRecord, ha, amountTruthy, ha0]
    · intro m hw
      rw [orchPay_failOther _ _ _ _ _ _ _ _ _ _ _ _ hw]
      simp [spendingRecord, ha, amountTruthy, ha0]

/-- C1 witness: a paid 1000-sat challenge appends exactly one successful
record; a failed payment of the same challenge appends exactly one failed
record. -/
theorem ledger_one_entry_per_attempt_witness :
    (let r := clientRequest (some {}) ⟨256, some 3600, []⟩
      [⟨"old", "/o", 7, "q", 0, true⟩] "api.example.com" "/a/b" [] 3
      (.ok ⟨402, [("WWW-Authenticate", "L402 macaroon=\"m\", invoice=\"lnbc10u1p\"")]⟩)
      (fun _ => .ok "pre") (.ok ⟨200, []⟩);
      r.ledger = [⟨"old", "/o", 7, "q", 0, true⟩] ++
        [⟨"api.example.com", "/a/b", 1000, "pre", 3, true⟩]) ∧
    (let r := clientRequest (some {}) ⟨256, some 3600, []⟩ [] "api.example.com" "/a/b"
      [] 3
      (.ok ⟨402, [("WWW-Authenticate", "L402 macaroon=\"m\", invoice=\"lnbc10u1p\"")]⟩)
      (fun _ => .failOther "routing") (.ok ⟨200, []⟩);
      r.ledger = [] ++ [⟨"api.example.com", "/a/b", 1000, "", 3, false⟩]) := by
  constructor
  · exact ((ledger_one_entry_per_attempt (some {}) ⟨256, some 3600, []⟩
      [⟨"old", "/o", 7, "q", 0, true⟩] "api.example.com" "/a/b" [] 3
      (.ok ⟨402, [("WWW-Authenticate", "L402 macaroon=\"m\", invoice=\"lnbc10u1p\"")]⟩)
      (fun _ => .ok "pre") (.ok ⟨200, []⟩) _ "lnbc10u1p" rfl rfl).2 1000 (by decide)
      (by decide)).1 "pre" rfl
  · exact ((ledger_one_entry_per_attempt (some {}) ⟨256, some 3600, []⟩ []
      "api.example.com" "/a/b" [] 3
      (.ok ⟨402, [("WWW-Authenticate", "L402 macaroon=\"m\", invoice=\"lnbc10u1p\"")]⟩)
      (fun _ => .failOther "routing") (.ok ⟨200, []⟩) _ "lnbc10u1p" rfl rfl).2 1000
      (by decide) (by decide)).2.2 "routing" rfl

/-- C1 counterexample to the claim as stated: an any-amount invoice (no
digits) leads to a completed, successful payment attempt with ZERO ledger
entries — not exactly one. -/
theorem ledger_zero_entries_counterexample :
    let r := clientRequest none ⟨256, some 3600, []⟩ [] "api.example.com" "/a/b" [] 0
      (.ok ⟨402, [("WWW-Authenticate", "L402 macaroon=\"m\", invoice=\"lnbc1x\"")]⟩)
      (fun _ => .ok "pre") (.ok ⟨200, []⟩);
    r.payAttempts.length = 1 ∧ r.ledger.length = 0 := by
  exact ⟨rfl, rfl⟩

/-- C10: an invoice that explicitly encodes zero (digit string of value 0)
extracts as `some 0`, not `none`; the orchestrator then runs the budget
check with amount 0 but — because the recording guards use truthiness —
appends no ledger entry and no budget-window entry after a successful
payment, appends no failed entry after a failed payment, and still caches
the credential and retries. -/
theorem zero_amount_invoice_behavior :
    (∀ (b : String) net ds m,
      bolt11Match (normalizeInvoice b) = some (net, (some ds, m)) →
      digitsToNat ds = 0 → extract_amount_sats b = some 0) ∧
    (∀ (budget0 : Option BudgetController) (cache0 : CredentialCache)
      (ledger0 : List PaymentRecord) (host path : String)
      (headers0 : List (String × String)) (now : Int) (r1 : Response)
      (ch : L402Challenge) (wallet : String → WalletResult)
      (resp2 : TransportResult) (r : RunResult) (b : BudgetController),
      clientRequest budget0 cache0 ledger0 host path headers0 now (.ok r1) wallet
        resp2 = r →
      r1.status = 402 → find_l402_challenge r1.headers = some ch →
      extract_amount_sats ch.invoice = some 0 →
      budget0 = some b → (b.check 0 host now).1 = none →
      r.budget = some ((b.check 0 host now).2) ∧ r.payAttempts = [ch.invoice] ∧
      (∀ p, wallet ch.invoice = .ok p →
        r.ledger = ledger0 ∧
        r.cache = (((cache0.get host path now).2).put host path ch.macaroon p none
          now).1 ∧
        r.sends.length = 2 ∧
        (∀ r2, resp2 = .ok r2 → r.result = .ok r2)) ∧
      (∀ m, wallet ch.invoice = .failOther m →
        r.ledger = ledger0 ∧ r.result = .error (.paymentFailed m ch.invoice)) ∧
      (∀ m, wallet ch.invoice = .failL402 m →
        r.ledger = ledger0 ∧ r.result = .error (.walletL402 m))) := by
  constructor
  · intro b net ds m hmatch hzero
    have hne : b ≠ "" := by
      rintro rfl
      simp [normalizeInvoice, pyStrip, bolt11Match] at hmatch
    simp only [extract_amount_sats, if_neg hne, hmatch, hzero]
    rcases m with _ | c <;> simp
  · intro budget0 cache0 ledger0 host path headers0 now r1 ch wallet resp2 r b h h4
      hf ha hb hc
    subst h
    subst hb
    rw [clientRequest_challenge _ _ _ _ _ _ _ _ _ _ _ h4 hf,
      orchChallenge_budget_ok _ _ _ _ _ _ _ _ _ _ _ _ rfl ha hc]
    have htr : amountTruthy (some 0) = false := by decide
    refine ⟨?_, ?_, ?_, ?_, ?_⟩
    · rcases hw : wallet ch.invoice with p | m | m
      · rw [orchPay_ok _ _ _ _ _ _ _ _ _ _ _ _ hw]; simp [htr]
      · rw [orchPay_failL402 _ _ _ _ _ _ _ _ _ _ _ _ hw]
      · rw [orchPay_failOther _ _ _ _ _ _ _ _ _ _ _ _ hw]
    · exact orchPay_payAttempts _ _ _ _ _ _ _ _ _ _ _
    · intro p hw
      rw [orchPay_ok _ _ _ _ _ _ _ _ _ _ _ _ hw]
      refine ⟨by simp [htr], rfl, rfl, ?_⟩
      rintro r2 rfl
      rfl
    · intro m hw
      rw [orchPay_failOther _ _ _ _ _ _ _ _ _ _ _ _ hw]
      exact ⟨by simp [htr], rfl⟩
    · intro m hw
      rw [orchPay_failL402 _ _ _ _ _ _ _ _ _ _ _ _ hw]
      exact ⟨by simp [htr], rfl⟩

/-- C10 witness: the concrete zero-amount invoice `lnbc0u1p` extracts as 0,
and a run over it pays, skips the ledger and budget window, caches, and
retries. -/
theorem zero_amount_invoice_behavior_witness :
    extract_amount_sats "lnbc0u1p" = some 0 ∧
    (let r := clientRequest (some {}) ⟨256, some 3600, []⟩ [] "api.example.com" "/a/b"
      [] 0
      (.ok ⟨402, [("WWW-Authenticate", "L402 macaroon=\"m\", invoice=\"lnbc0u1p\"")]⟩)
      (fun _ => .ok "pre") (.ok ⟨200, []⟩);
      r.budget = some ((BudgetController.check {} 0 "api.example.com" 0).2) ∧
      r.payAttempts = ["lnbc0u1p"] ∧ r.ledger = [] ∧ r.sends.length = 2 ∧
      r.result = .ok ⟨200, []⟩) := by
  constructor
  · exact zero_amount_invoice_behavior.1 "lnbc0u1p" "bc".toList "0".toList (some 'u')
      (by decide) (by decide)
  · have hmain := zero_amount_invoice_behavior.2 (some {}) ⟨256, some 3600, []⟩ []
      "api.example.com" "/a/b" [] 0
      ⟨402, [("WWW-Authenticate", "L402 macaroon=\"m\", invoice=\"lnbc0u1p\"")]⟩
      ⟨"m", "lnbc0u1p"⟩ (fun _ => .ok "pre") (.ok ⟨200, []⟩) _ {} rfl rfl rfl rfl
      rfl rfl
    obtain ⟨hbud, hpa, hok, -, -⟩ := hmain
    obtain ⟨hled, -, hs, hres⟩ := hok "pre" rfl
    exact ⟨hbud, hpa, hled, hs, hres ⟨200, []⟩ rfl⟩

theorem c9_pay_helper (budget1 : Option BudgetController) (cache1 : CredentialCache)
    (ledger1 : List PaymentRecord) (host path host2 path2 : String)
    (headers1 headers2 : List (String × String)) (now now2 : Int)
    (ch : L402Challenge) (am : Option Nat) (wallet wallet2 : String → WalletResult)
    (resp2 resp4 : TransportResult) (resp3 : Response) (p : String) (r : RunResult)
    (hr : orchPay budget1 cache1 ledger1 host path headers1 now ch am wallet resp2 = r)
    (hw : wallet ch.invoice = .ok p)
    (hcap : 1 ≤ cache1.max_size)
    (hkey : cache_key host2 path2 = cache_key host path)
    (hfresh : ∀ t, cache1.default_ttl = some t → now2 < now + t)
    (h403 : resp3.status ≠ 402) :
    (∃ cred, lookupKey (cache_key host path) r.cache.entries = some cred ∧
      cred.macaroon = ch.macaroon ∧ cred.preimage = p) ∧
    (∀ r2, clientRequest r.budget r.cache r.ledger host2 path2 headers2 now2
        (.ok resp3) wallet2 resp4 = r2 →
      r2.payAttempts = [] ∧ r2.result = .ok resp3 ∧ r2.ledger = r.ledger ∧
      r2.sends = [setHeader headers2 "Authorization"
        ("L402 " ++ ch.macaroon ++ ":" ++ p)]) := by
  have hcache : r.cache = (cache1.put host path ch.macaroon p none now).1 := by
    rw [← hr, orchPay_ok _ _ _ _ _ _ _ _ _ _ _ _ hw]
  have hexp : ((cache1.put host path ch.macaroon p none now).2).is_expired now2
      = false := by
    rcases hd : cache1.default_ttl with _ | t
    · simp [CredentialCache.put, L402Credential.is_expired, hd]
    · have ht := hfresh t hd
      simp only [CredentialCache.put, hd, L402Credential.is_expired]
      simp only [decide_eq_false_iff_not]
      omega
  constructor
  · refine ⟨(cache1.put host path ch.macaroon p none now).2, ?_, rfl, rfl⟩
    rw [hcache]
    exact lookupKey_put_self cache1 host path ch.macaroon p none now hcap
  · intro r2 h2
    subst h2
    have hlook : lookupKey (cache_key host2 path2)
        ((cache1.put host path ch.macaroon p none now).1).entries =
        some ((cache1.put host path ch.macaroon p none now).2) := by
      rw [hkey]
      exact lookupKey_put_self cache1 host path ch.macaroon p none now hcap
    have hfst : (((cache1.put host path ch.macaroon p none now).1).get host2 path2
        now2).1 = some ((cache1.put host path ch.macaroon p none now).2) := by
      simp only [CredentialCache.get, hlook, hexp]
      simp
    rw [clientRequest_non402 _ _ _ _ _ _ _ _ _ _ h403]
    refine ⟨rfl, rfl, rfl, ?_⟩
    rw [hcache]
    simp only [lookedUpHeaders, hfst]
    rfl

/-- C9: after every successful payment the new credential (challenge
macaroon plus returned preimage) is stored under the derived cache key —
whatever the extracted amount was — and a subsequent request to any path
with the same first two segments on the same origin attaches the cached
credential and completes with zero additional payments. -/
theorem cache_store_and_reuse (budget0 : Option BudgetController)
    (cache0 : CredentialCache) (ledger0 : List PaymentRecord)
    (host path host2 path2 : String) (headers0 headers2 : List (String × String))
    (now now2 : Int) (r1 : Response) (ch : L402Challenge)
    (wallet wallet2 : String → WalletResult) (resp2 resp4 : TransportResult)
    (resp3 : Response) (p : String) (r : RunResult)
    (h : clientRequest budget0 cache0 ledger0 host path headers0 now (.ok r1) wallet
      resp2 = r)
    (h402 : r1.status = 402) (hf : find_l402_challenge r1.headers = some ch)
    (hpa : r.payAttempts = [ch.invoice]) (hw : wallet ch.invoice = .ok p)
    (hcap : 1 ≤ cache0.max_size)
    (hkey : cache_key host2 path2 = cache_key host path)
    (hfresh : ∀ t, cache0.default_ttl = some t → now2 < now + t)
    (h403 : resp3.status ≠ 402) :
    (∃ cred, lookupKey (cache_key host path) r.cache.entries = some cred ∧
      cred.macaroon = ch.macaroon ∧ cred.preimage = p) ∧
    (∀ r2, clientRequest r.budget r.cache r.ledger host2 path2 headers2 now2
        (.ok resp3) wallet2 resp4 = r2 →
      r2.payAttempts = [] ∧ r2.result = .ok resp3 ∧ r2.ledger = r.ledger ∧
      r2.sends = [setHeader headers2 "Authorization"
        ("L402 " ++ ch.macaroon ++ ":" ++ p)]) := by
  obtain ⟨r1b, chb, he, h4b, hfb, hinvb, budget1, hr, -⟩ :=
    clientRequest_pay_inversion budget0 cache0 ledger0 host path headers0 now
      (.ok r1) wallet resp2 r ch.invoice h hpa
  injection he with he1
  subst he1
  rw [hf] at hfb
  injection hfb with hchb
  subst hchb
  refine c9_pay_helper budget1 ((cache0.get host path now).2) ledger0 host path
    host2 path2 (lookedUpHeaders cache0 host path now headers0) headers2 now now2
    ch (extract_amount_sats ch.invoice) wallet wallet2 resp2 resp4 resp3 p r
    hr.symm hw ?_ hkey ?_ h403
  · rw [get_max_size]
    exact hcap
  · intro t ht
    rw [get_default_ttl] at ht
    exact hfresh t ht

/-- C9 witness: pay once for `/a/b/c`, then a request to `/a/b/zzz` on the
same origin attaches the cached credential and pays nothing. -/
theorem cache_store_and_reuse_witness :
    (let r := clientRequest (some {}) ⟨256, some 3600, []⟩ [] "api.example.com"
      "/a/b/c" [] 0
      (.ok ⟨402, [("WWW-Authenticate", "L402 macaroon=\"m\", invoice=\"lnbc10u1p\"")]⟩)
      (fun _ => .ok "pre") (.ok ⟨200, []⟩);
    (∃ cred, lookupKey (cache_key "api.example.com" "/a/b/c") r.cache.entries =
      some cred ∧ cred.macaroon = "m" ∧ cred.preimage = "pre") ∧
    (let r2 := clientRequest r.budget r.cache r.ledger "api.example.com" "/a/b/zzz"
      [] 100 (.ok ⟨200, [("k", "v")]⟩) (fun _ => .failOther "no") (.ok ⟨500, []⟩);
    r2.payAttempts = [] ∧ r2.result = .ok ⟨200, [("k", "v")]⟩ ∧ r2.ledger = r.ledger ∧
    r2.sends = [setHeader [] "Authorization" ("L402 " ++ "m" ++ ":" ++ "pre")])) := by
  have hmain := cache_store_and_reuse (some {}) ⟨256, some 3600, []⟩ []
    "api.example.com" "/a/b/c" "api.example.com" "/a/b/zzz" [] [] 0 100
    ⟨402, [("WWW-Authenticate", "L402 macaroon=\"m\", invoice=\"lnbc10u1p\"")]⟩
    ⟨"m", "lnbc10u1p"⟩ (fun _ => .ok "pre") (fun _ => .failOther "no")
    (.ok ⟨200, []⟩) (.ok ⟨500, []⟩) ⟨200, [("k", "v")]⟩ "pre" _ rfl rfl rfl rfl rfl
    (by decide) (by decide) (fun t ht => by simp at ht; omega) (by decide)
  exact ⟨hmain.1, hmain.2 _ rfl⟩

/-! ### Challenge-parser lemmas -/

theorem eatCI_of_map (pre s : List Char) :
    eatCI (pre.map Char.toLower) (pre ++ s) = some s := by
  induction pre with
  | nil => rfl
  | cons c cs ih => simp [eatCI, ih]

theorem eatCI_concat (lit pre s : List Char) (h : pre.map Char.toLower = lit) :
    eatCI lit (pre ++ s) = some s := h ▸ eatCI_of_map pre s

theorem eatCI_mem (pat s r : List Char) (h : eatCI pat s = some r) :
    ∀ c ∈ r, c ∈ s := by
  induction pat generalizing s with
  | nil =>
    simp only [eatCI, Option.some.injEq] at h
    subst h
    exact fun c hc => hc
  | cons p ps ih =>
    rcases s with _ | ⟨c, cs⟩
    · simp [eatCI] at h
    · simp only [eatCI] at h
      split at h
      · exact fun x hx => List.mem_cons_of_mem c (ih cs h x hx)
      · simp at h

theorem eatScheme_mem (s r : List Char) (h : eatScheme s = some r) : ∀ c ∈ r, c ∈ s := by
  unfold eatScheme at h
  rcases h1 : eatCI ("l402").toList s with _ | r1
  · rw [h1] at h
    exact eatCI_mem _ _ _ h
  · rw [h1] at h
    simp only [Option.some.injEq] at h
    subst h
    exact eatCI_mem _ _ _ h1

theorem eatSpaces1_mem (s r : List Char) (h : eatSpaces1 s = some r) :
    ∀ c ∈ r, c ∈ s := by
  rcases s with _ | ⟨c, cs⟩
  · simp [eatSpaces1] at h
  · simp only [eatSpaces1] at h
    split at h
    · simp only [Option.some.injEq] at h
      subst h
      exact fun x hx =>
        List.mem_cons_of_mem c ((List.dropWhile_sublist pySpace).subset hx)
    · simp at h

theorem dropWhile_head_false (p : Char → Bool) (l : List Char) (c : Char)
    (cs : List Char) (h : l.dropWhile p = c :: cs) : p c = false := by
  induction l with
  | nil => simp at h
  | cons a t ih =>
    rw [List.dropWhile_cons] at h
    split at h
    · exact ih h
    · rename_i hpa
      cases h
      simpa using hpa

theorem takeRun1_eq (p : Char → Bool) (s g r : List Char)
    (h : takeRun1 p s = some (g, r)) :
    g = s.takeWhile p ∧ r = s.dropWhile p ∧ g ≠ [] := by
  unfold takeRun1 at h
  rcases ht : s.takeWhile p with _ | ⟨a, t⟩
  · rw [ht] at h; simp at h
  · rw [ht] at h
    simp only [Option.some.injEq, Prod.mk.injEq] at h
    refine ⟨h.1.symm, h.2.symm, ?_⟩
    rw [← h.1]
    exact List.cons_ne_nil a t

theorem pySpace_toLower (c : Char) (h : pySpace c = true) : c.toLower = c := by
  simp only [pySpace, Bool.or_eq_true, decide_eq_true_eq] at h
  rcases h with ((((rfl | rfl) | rfl) | rfl) | rfl) | rfl <;> decide

theorem not_space_of_toLower (k c : Char) (hc : k.toLower = c)
    (hns : pySpace c = false) : pySpace k = false := by
  by_contra hx
  rw [Bool.not_eq_false] at hx
  have hk : k = c := by rw [← hc, pySpace_toLower k hx]
  subst hk
  rw [hx] at hns
  cases hns

theorem takeWhile_append_exact (p : Char → Bool) (g : List Char) (c : Char)
    (rest : List Char) (hg : ∀ x ∈ g, p x = true) (hc : p c = false) :
    (g ++ c :: rest).takeWhile p = g ∧ (g ++ c :: rest).dropWhile p = c :: rest := by
  induction g with
  | nil => simp [List.takeWhile_cons, List.dropWhile_cons, hc]
  | cons a t ih =>
    have ha : p a = true := hg a (by simp)
    have iht := ih (fun x hx => hg x (by simp [hx]))
    simp [List.takeWhile_cons, List.dropWhile_cons, ha, iht.1, iht.2]

theorem takeRun1_exact (p : Char → Bool) (g : List Char) (c : Char)
    (rest : List Char) (hg : ∀ x ∈ g, p x = true) (hne : g ≠ []) (hc : p c = false) :
    takeRun1 p (g ++ c :: rest) = some (g, c :: rest) := by
  obtain ⟨ht, hd⟩ := takeWhile_append_exact p g c rest hg hc
  unfold takeRun1
  rw [ht, hd]
  rcases g with _ | ⟨a, t⟩
  · exact absurd rfl hne
  · rfl

theorem takeRun1_all (p : Char → Bool) (g : List Char)
    (hg : ∀ x ∈ g, p x = true) (hne : g ≠ []) : takeRun1 p g = some (g, []) := by
  have ht : g.takeWhile p = g := List.takeWhile_eq_self_iff.mpr hg
  have hd : g.dropWhile p = [] := List.dropWhile_eq_nil_iff.mpr hg
  unfold takeRun1
  rw [ht, hd]
  rcases g with _ | ⟨a, t⟩
  · exact absurd rfl hne
  · rfl

theorem searchFrom_of_hit (m : List Char → Option (List Char × List Char))
    (s : List Char) (r : List Char × List Char) (h : m s = some r) :
    searchFrom m s = some r := by
  cases s <;> simp [searchFrom, h]

theorem eatScheme_append (sch s : List Char)
    (h : sch.map Char.toLower = ("l402").toList ∨
      sch.map Char.toLower = ("lsat").toList) :
    eatScheme (sch ++ s) = some s := by
  rcases h with h | h
  · unfold eatScheme
    rw [eatCI_concat _ _ _ h]
  · have hlen : sch.length = 4 := by
      have := congrArg List.length h
      simpa using this
    rcases sch with _ | ⟨a, sch⟩; · simp at hlen
    rcases sch with _ | ⟨b, sch⟩; · simp at hlen
    rcases sch with _ | ⟨c, sch⟩; · simp at hlen
    rcases sch with _ | ⟨d, sch⟩; · simp at hlen
    rcases sch with _ | ⟨e, sch⟩
    swap
    · simp at hlen
    rw [show ("lsat").toList = ['l', 's', 'a', 't'] from rfl] at h
    simp only [List.map_cons, List.map_nil, List.cons.injEq, and_true] at h
    obtain ⟨ha, hb, hc, hd⟩ := h
    unfold eatScheme
    have h1 : eatCI ("l402").toList ([a, b, c, d] ++ s) = none := by
      rw [show ("l402").toList = ['l', '4', '0', '2'] from rfl]
      simp only [List.cons_append, List.nil_append, eatCI, ha, if_pos]
      rw [hb]
      simp [eatCI]
    rw [h1]
    exact eatCI_concat _ [a, b, c, d] s (by simp [ha, hb, hc, hd])

/-- A quote-free string cannot match the quoted challenge shape: the match
would have to stop the first captured group at a double quote. -/
theorem quotedAt_none_of_no_quote (s : List Char) (h : '"' ∉ s) : quotedAt s = none := by
  rcases he1 : eatScheme s with _ | s1
  · simp only [quotedAt, he1]
  · rcases he2 : eatSpaces1 s1 with _ | s2
    · simp only [quotedAt, he1, he2]
    · rcases he3 : eatCI ("macaroon=\"").toList s2 with _ | s3
      · simp only [quotedAt, he1, he2, he3]
      · rcases he4 : takeRun1 notQuote s3 with _ | ⟨mac, s4⟩
        · simp only [quotedAt, he1, he2, he3, he4]
        · rcases hs4 : s4 with _ | ⟨c, cs⟩
          · subst hs4
            simp only [quotedAt, he1, he2, he3, he4, eatCI]
          · exfalso
            obtain ⟨-, hdrop, -⟩ := takeRun1_eq notQuote s3 mac s4 he4
            have hcq : notQuote c = false :=
              dropWhile_head_false notQuote s3 c cs (by rw [← hdrop, hs4])
            have hc : c = '"' := by simpa [notQuote] using hcq
            subst hc
            apply h
            have h1 : '"' ∈ s4 := by rw [hs4]; simp
            have h2 : '"' ∈ s3 := by
              rw [hdrop] at h1
              exact (List.dropWhile_sublist notQuote).subset h1
            have h3 : '"' ∈ s2 := eatCI_mem _ _ _ he3 _ h2
            have h4 : '"' ∈ s1 := eatSpaces1_mem _ _ he2 _ h3
            exact eatScheme_mem _ _ he1 _ h4

theorem searchQuoted_none (s : List Char) (h : '"' ∉ s) :
    searchFrom quotedAt s = none := by
  induction s with
  | nil => exact quotedAt_none_of_no_quote [] h
  | cons c rest ih =>
    have h1 : quotedAt (c :: rest) = none := quotedAt_none_of_no_quote _ h
    simp only [searchFrom, h1]
    exact ih (fun hm => h (List.mem_cons_of_mem c hm))

theorem quote_not_mem_of_map (l target : List Char) (h : l.map Char.toLower = target)
    (ht : '"' ∉ target) : '"' ∉ l := by
  intro hc
  have h2 : Char.toLower '"' ∈ l.map Char.toLower := List.mem_map_of_mem Char.toLower hc
  rw [h] at h2
  exact ht h2

theorem dropWhile_cons_ne (c : Char) (l : List Char) (hc : pySpace c = false) :
    (c :: l).dropWhile pySpace = c :: l := by
  simp [List.dropWhile_cons, hc]

theorem pyStrip_of_no_space (l : List Char) (h : ∀ c ∈ l, pySpace c = false) :
    pyStrip l = l := by
  have h1 : ∀ m : List Char, (∀ c ∈ m, pySpace c = false) →
      m.dropWhile pySpace = m := by
    intro m hm
    rcases m with _ | ⟨a, t⟩
    · rfl
    · exact dropWhile_cons_ne a t (hm a (by simp))
  unfold pyStrip
  rw [h1 l h, h1 l.reverse (fun c hc => h c (List.mem_reverse.mp hc)),
    List.reverse_reverse]

theorem notQuote_of_not_mem (l : List Char) (h : '"' ∉ l) :
    ∀ x ∈ l, notQuote x = true := by
  intro x hx
  simp only [notQuote, bne_iff_ne, ne_eq]
  rintro rfl
  exact h hx

theorem classU_no_space (l : List Char) (h : ∀ c ∈ l, classU c = true) :
    ∀ c ∈ l, pySpace c = false := by
  intro c hc
  have := h c hc
  simp only [classU, Bool.and_eq_true, Bool.not_eq_true'] at this
  exact this.1

/-- A full match of the quoted challenge shape at position zero. -/
theorem quotedAt_construct (sch macKey invKey mac inv : List Char)
    (hsch : sch.map Char.toLower = ("l402").toList ∨
      sch.map Char.toLower = ("lsat").toList)
    (hmk : macKey.map Char.toLower = ("macaroon").toList)
    (hik : invKey.map Char.toLower = ("invoice").toList)
    (hqmac : '"' ∉ mac) (hqinv : '"' ∉ inv)
    (hmacne : mac ≠ []) (hinvne : inv ≠ []) :
    quotedAt (sch ++ ' ' :: (macKey ++ '=' :: '"' :: (mac ++ '"' :: ',' :: ' ' ::
      (invKey ++ '=' :: '"' :: (inv ++ ['"']))))) = some (mac, inv) := by
  rcases macKey with _ | ⟨k1, macKey⟩
  · simp at hmk
  rcases invKey with _ | ⟨k2, invKey⟩
  · simp at hik
  have hk1 : k1.toLower = 'm' := by
    rw [show ("macaroon").toList = 'm' :: "acaroon".toList from rfl] at hmk
    exact (List.cons.injEq .. ▸ hmk).1
  have hk2 : k2.toLower = 'i' := by
    rw [show ("invoice").toList = 'i' :: "nvoice".toList from rfl] at hik
    exact (List.cons.injEq .. ▸ hik).1
  have hs1 : pySpace k1 = false := not_space_of_toLower k1 'm' hk1 rfl
  have hs2 : pySpace k2 = false := not_space_of_toLower k2 'i' hk2 rfl
  set Y := (k2 :: invKey) ++ '=' :: '"' :: (inv ++ ['"']) with hY
  set Z := mac ++ '"' :: ',' :: ' ' :: Y with hZ
  set X := (k1 :: macKey) ++ '=' :: '"' :: Z with hX
  have e1 : eatScheme (sch ++ ' ' :: X) = some (' ' :: X) := by
    rw [show sch ++ ' ' :: X = sch ++ (' ' :: X) from rfl]
    exact eatScheme_append sch (' ' :: X) hsch
  have e2 : eatSpaces1 (' ' :: X) = some (X.dropWhile pySpace) := by
    have hsp : pySpace ' ' = true := rfl
    simp [eatSpaces1, hsp]
  have e2b : X.dropWhile pySpace = X := by
    rw [hX]
    exact dropWhile_cons_ne k1 _ hs1
  have e3 : eatCI ("macaroon=\"").toList X = some Z := by
    rw [hX, show (k1 :: macKey) ++ '=' :: '"' :: Z =
      ((k1 :: macKey) ++ ['=', '"']) ++ Z by simp]
    exact eatCI_concat _ _ _ (by rw [List.map_append, hmk]; rfl)
  have e4 : takeRun1 notQuote Z = some (mac, '"' :: ',' :: ' ' :: Y) := by
    rw [hZ]
    exact takeRun1_exact notQuote mac '"' _ (notQuote_of_not_mem mac hqmac) hmacne rfl
  have e5 : eatCI ("\"").toList ('"' :: ',' :: ' ' :: Y) = some (',' :: ' ' :: Y) :=
    eatCI_concat _ ['"'] _ rfl
  have e6 : (',' :: ' ' :: Y).dropWhile pySpace = ',' :: ' ' :: Y :=
    dropWhile_cons_ne ',' _ rfl
  have e7 : eatCI (",").toList (',' :: ' ' :: Y) = some (' ' :: Y) :=
    eatCI_concat _ [','] _ rfl
  have e8 : (' ' :: Y).dropWhile pySpace = Y := by
    have hsp : pySpace ' ' = true := rfl
    rw [List.dropWhile_cons, if_pos hsp, hY]
    exact dropWhile_cons_ne k2 _ hs2
  have e9 : eatCI ("invoice=\"").toList Y = some (inv ++ ['"']) := by
    rw [hY, show (k2 :: invKey) ++ '=' :: '"' :: (inv ++ ['"']) =
      ((k2 :: invKey) ++ ['=', '"']) ++ (inv ++ ['"']) by simp]
    exact eatCI_concat _ _ _ (by rw [List.map_append, hik]; rfl)
  have e10 : takeRun1 notQuote (inv ++ ['"']) = some (inv, ['"']) :=
    takeRun1_exact notQuote inv '"' [] (notQuote_of_not_mem inv hqinv) hinvne rfl
  have e11 : eatCI ("\"").toList ['"'] = some [] := eatCI_concat _ ['"'] [] rfl
  simp only [quotedAt, e1, e2, e2b, e3, e4, e5, e6, e7, e8, e9, e10, e11]

/-- A full match of the unquoted challenge shape at position zero: the
greedy first group backtracks to exactly the macaroon. -/
theorem unquotedAt_construct (sch macKey invKey mac inv : List Char)
    (hsch : sch.map Char.toLower = ("l402").toList ∨
      sch.map Char.toLower = ("lsat").toList)
    (hmk : macKey.map Char.toLower = ("macaroon").toList)
    (hik : invKey.map Char.toLower = ("invoice").toList)
    (hcmac : ∀ c ∈ mac, classU c = true) (hcinv : ∀ c ∈ inv, classU c = true)
    (hmacne : mac ≠ []) (hinvne : inv ≠ []) :
    unquotedAt (sch ++ ' ' :: (macKey ++ '=' :: (mac ++ ',' :: ' ' ::
      (invKey ++ '=' :: inv)))) = some (mac, inv) := by
  rcases macKey with _ | ⟨k1, macKey⟩
  · simp at hmk
  rcases invKey with _ | ⟨k2, invKey⟩
  · simp at hik
  have hk1 : k1.toLower = 'm' := by
    rw [show ("macaroon").toList = 'm' :: "acaroon".toList from rfl] at hmk
    exact (List.cons.injEq .. ▸ hmk).1
  have hk2 : k2.toLower = 'i' := by
    rw [show ("invoice").toList = 'i' :: "nvoice".toList from rfl] at hik
    exact (List.cons.injEq .. ▸ hik).1
  have hs1 : pySpace k1 = false := not_space_of_toLower k1 'm' hk1 rfl
  have hs2 : pySpace k2 = false := not_space_of_toLower k2 'i' hk2 rfl
  set V := (k2 :: invKey) ++ '=' :: inv with hV
  set W := mac ++ ',' :: ' ' :: V with hW
  set X := (k1 :: macKey) ++ '=' :: W with hX
  have e1 : eatScheme (sch ++ ' ' :: X) = some (' ' :: X) :=
    eatScheme_append sch (' ' :: X) hsch
  have e2 : eatSpaces1 (' ' :: X) = some (X.dropWhile pySpace) := by
    have hsp : pySpace ' ' = true := rfl
    simp [eatSpaces1, hsp]
  have e2b : X.dropWhile pySpace = X := by
    rw [hX]
    exact dropWhile_cons_ne k1 _ hs1
  have e3 : eatCI ("macaroon=").toList X = some W := by
    rw [hX, show (k1 :: macKey) ++ '=' :: W = ((k1 :: macKey) ++ ['=']) ++ W by simp]
    exact eatCI_concat _ _ _ (by rw [List.map_append, hmk]; rfl)
  have e4 := takeWhile_append_exact classU mac ',' (' ' :: V) hcmac rfl
  have etail : unquotTail (',' :: ' ' :: V) = some inv := by
    have d1 : (',' :: ' ' :: V).dropWhile pySpace = ',' :: ' ' :: V :=
      dropWhile_cons_ne ',' _ rfl
    have d2 : (' ' :: V).dropWhile pySpace = V := by
      have hsp : pySpace ' ' = true := rfl
      rw [List.dropWhile_cons, if_pos hsp, hV]
      exact dropWhile_cons_ne k2 _ hs2
    have d3 : eatCI ("invoice=").toList V = some inv := by
      rw [hV, show (k2 :: invKey) ++ '=' :: inv = ((k2 :: invKey) ++ ['=']) ++ inv
        by simp]
      exact eatCI_concat _ _ _ (by rw [List.map_append, hik]; rfl)
    have d4 : takeRun1 classU inv = some (inv, []) := takeRun1_all classU inv hcinv hinvne
    simp only [unquotTail, d1, d2, d3, d4]
  have e5 : tryMac mac.length mac (',' :: ' ' :: V) = some (mac, inv) := by
    rcases hm : mac with _ | ⟨m0, mac2⟩
    · exact absurd hm hmacne
    have hdrop : (m0 :: mac2).drop (mac2.length + 1) = [] := by
      rw [show mac2.length + 1 = (m0 :: mac2).length from rfl, List.drop_length]
    have htake : (m0 :: mac2).take (mac2.length + 1) = m0 :: mac2 := by
      rw [show mac2.length + 1 = (m0 :: mac2).length from rfl, List.take_length]
    show tryMac (mac2.length + 1) (m0 :: mac2) (',' :: ' ' :: V) = some (m0 :: mac2, inv)
    simp only [tryMac, hdrop, List.nil_append, etail, htake]
  simp only [unquotedAt, e1, e2, e2b, e3, e4.1, e4.2, e5]

theorem toList_mk (l : List Char) : (String.mk l).toList = l := rfl

theorem mk_ne_empty (l : List Char) (h : l ≠ []) : String.mk l ≠ "" := by
  intro hc
  apply h
  have h2 : (String.mk l).data = ("" : String).data := by rw [hc]
  simpa using h2

theorem parse_challenge_quoted_shape (sch macKey invKey mac inv : List Char)
    (hsch : sch.map Char.toLower = ("l402").toList ∨
      sch.map Char.toLower = ("lsat").toList)
    (hmk : macKey.map Char.toLower = ("macaroon").toList)
    (hik : invKey.map Char.toLower = ("invoice").toList)
    (hqmac : '"' ∉ mac) (hqinv : '"' ∉ inv)
    (hmacne : mac ≠ []) (hinvne : inv ≠ [])
    (hstripm : pyStrip mac = mac) (hstripi : pyStrip inv = inv) :
    parse_challenge (String.mk (sch ++ ' ' :: (macKey ++ '=' :: '"' ::
      (mac ++ '"' :: ',' :: ' ' :: (invKey ++ '=' :: '"' :: (inv ++ ['"'])))))) =
      .ok ⟨String.mk mac, String.mk inv⟩ := by
  set H := sch ++ ' ' :: (macKey ++ '=' :: '"' :: (mac ++ '"' :: ',' :: ' ' ::
    (invKey ++ '=' :: '"' :: (inv ++ ['"'])))) with hH
  have hHne : H ≠ [] := by
    rw [hH]
    simp
  have hq : searchFrom quotedAt H = some (mac, inv) :=
    searchFrom_of_hit _ _ _
      (quotedAt_construct sch macKey invKey mac inv hsch hmk hik hqmac hqinv
        hmacne hinvne)
  have hcs : challengeSearch H = some (mac, inv) := by
    simp only [challengeSearch, hq]
  have hne : String.mk H ≠ "" := mk_ne_empty H hHne
  simp only [parse_challenge, if_neg hne, toList_mk, hcs, hstripm, hstripi,
    if_neg hmacne, if_neg hinvne]

theorem parse_challenge_unquoted_shape (sch macKey invKey mac inv : List Char)
    (hsch : sch.map Char.toLower = ("l402").toList ∨
      sch.map Char.toLower = ("lsat").toList)
    (hmk : macKey.map Char.toLower = ("macaroon").toList)
    (hik : invKey.map Char.toLower = ("invoice").toList)
    (hcmac : ∀ c ∈ mac, classU c = true) (hcinv : ∀ c ∈ inv, classU c = true)
    (hqmac : '"' ∉ mac) (hqinv : '"' ∉ inv)
    (hmacne : mac ≠ []) (hinvne : inv ≠ []) :
    parse_challenge (String.mk (sch ++ ' ' :: (macKey ++ '=' ::
      (mac ++ ',' :: ' ' :: (invKey ++ '=' :: inv))))) =
      .ok ⟨String.mk mac, String.mk inv⟩ := by
  set H := sch ++ ' ' :: (macKey ++ '=' :: (mac ++ ',' :: ' ' ::
    (invKey ++ '=' :: inv))) with hH
  have hHne : H ≠ [] := by
    rw [hH]
    simp
  have hnq : '"' ∉ H := by
    intro hc
    rw [hH] at hc
    simp only [List.mem_append, List.mem_cons] at hc
    rcases hc with hc | hc | hc
    · rcases hsch with hs | hs
      · exact quote_not_mem_of_map sch _ hs (by decide) hc
      · exact quote_not_mem_of_map sch _ hs (by decide) hc
    · cases hc
    · rcases hc with hc | hc | hc
      · exact quote_not_mem_of_map macKey _ hmk (by decide) hc
      · cases hc
      · rcases hc with hc | hc | hc | hc
        · exact hqmac hc
        · cases hc
        · cases hc
        · rcases hc with hc | hc | hc
          · exact quote_not_mem_of_map invKey _ hik (by decide) hc
          · cases hc
          · exact hqinv hc
  have hqs : searchFrom quotedAt H = none := searchQuoted_none H hnq
  have hus : searchFrom unquotedAt H = some (mac, inv) :=
    searchFrom_of_hit _ _ _
      (unquotedAt_construct sch macKey invKey mac inv hsch hmk hik hcmac hcinv
        hmacne hinvne)
  have hcs : challengeSearch H = some (mac, inv) := by
    simp only [challengeSearch, hqs, hus]
  have hstripm : pyStrip mac = mac := pyStrip_of_no_space mac (classU_no_space mac hcmac)
  have hstripi : pyStrip inv = inv := pyStrip_of_no_space inv (classU_no_space inv hcinv)
  have hne : String.mk H ≠ "" := mk_ne_empty H hHne
  simp only [parse_challenge, if_neg hne, toList_mk, hcs, hstripm, hstripi,
    if_neg hmacne, if_neg hinvne]

theorem parse_challenge_error_iff (header : String) :
    (∃ e, parse_challenge header = .error e) ↔
      (header = "" ∨ challengeSearch header.toList = none ∨
       ∃ mac inv, challengeSearch header.toList = some (mac, inv) ∧
         (pyStrip mac = [] ∨ pyStrip inv = [])) := by
  by_cases h0 : header = ""
  · simp [parse_challenge, h0]
  · rcases hcs : challengeSearch header.toList with _ | ⟨mac, inv⟩
    · have hcs2 : challengeSearch header.data = none := hcs
      simp [parse_challenge, h0, hcs, hcs2]
    · have hcs2 : challengeSearch header.data = some (mac, inv) := hcs
      by_cases hm : pyStrip mac = []
      · simp [parse_challenge, h0, hcs, hcs2, hm]
        exact ⟨mac, inv, ⟨rfl, rfl⟩, Or.inl hm⟩
      · by_cases hi : pyStrip inv = []
        · simp [parse_challenge, h0, hcs, hcs2, hm, hi]
          exact ⟨mac, inv, ⟨rfl, rfl⟩, Or.inr hi⟩
        · simp [parse_challenge, h0, hcs, hcs2, hm, hi]

/-- C8: `parse_challenge` recovers the exact macaroon and invoice substrings
from each of the recognized shapes — quoted and unquoted, with the scheme
keyword `L402` or the legacy `LSAT` in any character case, and with the
`macaroon`/`invoice` keys in any character case — and it fails exactly when
the header is empty, no shape matches anywhere in the header, or an
extracted field is empty after trimming whitespace. -/
theorem challenge_parsing_spec :
    (∀ sch macKey invKey mac inv : List Char,
      (sch.map Char.toLower = ("l402").toList ∨
        sch.map Char.toLower = ("lsat").toList) →
      macKey.map Char.toLower = ("macaroon").toList →
      invKey.map Char.toLower = ("invoice").toList →
      '"' ∉ mac → '"' ∉ inv → mac ≠ [] → inv ≠ [] →
      pyStrip mac = mac → pyStrip inv = inv →
      parse_challenge (String.mk (sch ++ ' ' :: (macKey ++ '=' :: '"' ::
        (mac ++ '"' :: ',' :: ' ' :: (invKey ++ '=' :: '"' :: (inv ++ ['"'])))))) =
        .ok ⟨String.mk mac, String.mk inv⟩) ∧
    (∀ sch macKey invKey mac inv : List Char,
      (sch.map Char.toLower = ("l402").toList ∨
        sch.map Char.toLower = ("lsat").toList) →
      macKey.map Char.toLower = ("macaroon").toList →
      invKey.map Char.toLower = ("invoice").toList →
      (∀ c ∈ mac, classU c = true) → (∀ c ∈ inv, classU c = true) →
      '"' ∉ mac → '"' ∉ inv → mac ≠ [] → inv ≠ [] →
      parse_challenge (String.mk (sch ++ ' ' :: (macKey ++ '=' ::
        (mac ++ ',' :: ' ' :: (invKey ++ '=' :: inv))))) =
        .ok ⟨String.mk mac, String.mk inv⟩) ∧
    (∀ header : String,
      (∃ e, parse_challenge header = .error e) ↔
        (header = "" ∨ challengeSearch header.toList = none ∨
         ∃ mac inv, challengeSearch header.toList = some (mac, inv) ∧
           (pyStrip mac = [] ∨ pyStrip inv = []))) := by
  refine ⟨?_, ?_, parse_challenge_error_iff⟩
  · intro sch macKey invKey mac inv hsch hmk hik hqm hqi hmn hin hsm hsi
    exact parse_challenge_quoted_shape sch macKey invKey mac inv hsch hmk hik
      hqm hqi hmn hin hsm hsi
  · intro sch macKey invKey mac inv hsch hmk hik hcm hci hqm hqi hmn hin
    exact parse_challenge_unquoted_shape sch macKey invKey mac inv hsch hmk hik
      hcm hci hqm hqi hmn hin

/-- C8 witness: a mixed-case quoted header, a legacy unquoted LSAT header,
and the error cases. -/
theorem challenge_parsing_spec_witness :
    parse_challenge (String.mk ("l402".toList ++ ' ' :: ("MACaroon".toList ++
      '=' :: '"' :: ("abc".toList ++ '"' :: ',' :: ' ' :: ("Invoice".toList ++
      '=' :: '"' :: ("lnbc1x".toList ++ ['"']))))) ) =
      .ok ⟨String.mk "abc".toList, String.mk "lnbc1x".toList⟩ ∧
    parse_challenge (String.mk ("LSAT".toList ++ ' ' :: ("macaroon".toList ++
      '=' :: ("mb".toList ++ ',' :: ' ' :: ("invoice".toList ++
      '=' :: "lnbc9u1z".toList))))) =
      .ok ⟨String.mk "mb".toList, String.mk "lnbc9u1z".toList⟩ ∧
    (∃ e, parse_challenge "" = .error e) ∧
    (∃ e, parse_challenge "Bearer xyz" = .error e) := by
  refine ⟨?_, ?_, ?_, ?_⟩
  · exact challenge_parsing_spec.1 "l402".toList "MACaroon".toList "Invoice".toList
      "abc".toList "lnbc1x".toList (Or.inl (by decide)) (by decide) (by decide)
      (by decide) (by decide) (by decide) (by decide) (by decide) (by decide)
  · exact challenge_parsing_spec.2.1 "LSAT".toList "macaroon".toList
      "invoice".toList "mb".toList "lnbc9u1z".toList (Or.inr (by decide))
      (by decide) (by decide) (by decide) (by decide) (by decide) (by decide)
      (by decide) (by decide)
  · exact (challenge_parsing_spec.2.2 "").mpr (Or.inl rfl)
  · exact (challenge_parsing_spec.2.2 "Bearer xyz").mpr (Or.inr (Or.inl (by rfl)))

end L402Req
